import Mathlib

/-! ## ZeroconfRegisterAvahi

A shallow embedding of `src/gui/src/ZeroconfRegisterAvahi.cpp`: the object that
registers one DNS-SD service with the Avahi daemon, renames it on collisions and
reconnects after a daemon disconnect.

* The C++ object becomes the structure `ZeroconfRegisterAvahi`; every member
  function becomes a function from the object before the call to the object
  after it.
* Avahi is an external library.  Whatever one of its functions answers is read
  from an `Avahi` value handed to the member function, so the theorems hold for
  every behaviour of the daemon.  The operations the object performs on Avahi
  objects are appended to the ghost field `calls`, the Qt signals it emits to the
  ghost field `signals`.
* A `QString` is a Lean `String`; where the code hands Avahi a `const char *`
  the string is cut at its first U+0000 (`constData`).
* `create_services` calls itself after a local name collision and need not
  terminate; it takes a bound on the number of attempts and returns `none` when
  the bound is used up.
-/

/-- A non-null pointer to an Avahi object; `Option Handle` is a pointer that may be null. -/
abbrev Handle := Nat

/-- Modelled from the spec: the type declaration `ZeroconfRecord.h` is not among the
sources; a record holds the three strings the registrar reads and writes. -/
structure ZeroconfRecord where
  serviceName : String
  registeredType : String
  replyDomain : String
deriving DecidableEq, Repr

/-- The C string `toUtf8().constData()` of a `QString`, as a function that takes
a `const char *` reads it: the characters before the first U+0000, all of them
when there is none. -/
def constData (s : String) : String :=
  String.mk (s.data.takeWhile (fun ch => ch != Char.ofNat 0))

/-- Error code of `avahi-common/error.h`: generic failure. -/
def AVAHI_ERR_FAILURE : Int := -1

/-- Error code of `avahi-common/error.h`: name collision. -/
def AVAHI_ERR_COLLISION : Int := -8

/-- Error code of `avahi-common/error.h`: daemon connection failed. -/
def AVAHI_ERR_DISCONNECTED : Int := -23

/-- Error code of `avahi-common/error.h`: memory exhausted. -/
def AVAHI_ERR_NO_MEMORY : Int := -24

/-- The states `avahi-client/client.h` reports to a client callback. -/
inductive AvahiClientState where
  | S_REGISTERING
  | S_RUNNING
  | S_COLLISION
  | FAILURE
  | CONNECTING
deriving DecidableEq, Repr

/-- The states `avahi-client/publish.h` reports to an entry group callback. -/
inductive AvahiEntryGroupState where
  | UNCOMMITED
  | REGISTERING
  | ESTABLISHED
  | COLLISION
  | FAILURE
deriving DecidableEq, Repr

/-- The two Qt signals of the class. -/
inductive Signal where
  | error (code : Int)
  | serviceRegistered (record : ZeroconfRecord)
deriving DecidableEq, Repr

/-- An operation performed on an Avahi object, with its arguments and, where it
returns one, its result. Pure queries (`avahi_client_errno`,
`avahi_entry_group_is_empty`, `avahi_threaded_poll_get`, `avahi_strerror`) and
the name generator are not recorded. -/
inductive AvahiCall where
  | threaded_poll_new (ret : Option Handle)
  | threaded_poll_start (poll : Handle) (ret : Int)
  | threaded_poll_stop (poll : Handle)
  | threaded_poll_free (poll : Handle)
  | client_new (poll : Option Handle) (ret : Option Handle)
  | client_free (client : Handle)
  | entry_group_new (client : Option Handle) (ret : Option Handle)
  | entry_group_free (group : Handle)
  | entry_group_reset (group : Handle)
  | entry_group_add_service (group : Handle) (name type : String)
      (domain : Option String) (port : Nat) (ret : Int)
  | entry_group_commit (group : Handle) (ret : Int)
deriving DecidableEq, Repr

/-- What Avahi answers while one member function runs. `entry_group_is_empty n`
and `entry_group_add_service n` are the answers to the query and to the add
operation in the attempt number `n` of `create_services` (attempt 0 is the call
made by the callback, attempt `n + 1` the retry after the collision of attempt
`n`). `client_new` is the new client or the error code written through the
`error` out-parameter. -/
structure Avahi where
  threaded_poll_new : Option Handle
  client_new : Except Int Handle
  threaded_poll_start : Int
  client_errno : Int
  entry_group_new : Option Handle
  entry_group_is_empty : Nat → Bool
  entry_group_add_service : Nat → Int
  entry_group_commit : Int

/-- The data members of the class. `servicePort_` is a `quint16`.
`reconnectTimer_` is the single-shot `QTimer`: `none` when it is not running,
`some ms` when it is armed to fire once after `ms` milliseconds. `signals` and
`calls` are ghost history, oldest entry first. -/
structure ZeroconfRegisterAvahi where
  client_ : Option Handle
  group_ : Option Handle
  threaded_poll_ : Option Handle
  pendingRecord : ZeroconfRecord
  finalRecord : ZeroconfRecord
  servicePort_ : Nat
  reconnectTimer_ : Option Nat
  needsReconnect_ : Bool
  signals : List Signal
  calls : List AvahiCall
deriving DecidableEq, Repr

namespace ZeroconfRegisterAvahi

/-- `Q_EMIT`: the signal is appended to the history. -/
def emit (sig : Signal) (s : ZeroconfRegisterAvahi) : ZeroconfRegisterAvahi :=
  { s with signals := s.signals ++ [sig] }

/-- An operation on an Avahi object is appended to the history. -/
def call (c : AvahiCall) (s : ZeroconfRegisterAvahi) : ZeroconfRegisterAvahi :=
  { s with calls := s.calls ++ [c] }

/-- The constructor: null handles, default records, port 0, a single-shot timer
that is not running, no reconnect wanted. -/
def new : ZeroconfRegisterAvahi :=
  { client_ := none
    group_ := none
    threaded_poll_ := none
    pendingRecord := ⟨"", "", ""⟩
    finalRecord := ⟨"", "", ""⟩
    servicePort_ := 0
    reconnectTimer_ := none
    needsReconnect_ := false
    signals := []
    calls := [] }

/-- The accessor `registeredRecord()`. -/
def registeredRecord (s : ZeroconfRegisterAvahi) : ZeroconfRecord :=
  s.finalRecord

/-- `reset()`: frees the group, the client and the threaded poll, each only when
held, and nulls the pointer. -/
def reset (s : ZeroconfRegisterAvahi) : ZeroconfRegisterAvahi :=
  let s1 := match s.group_ with
    | some g => { call (.entry_group_free g) s with group_ := none }
    | none => s
  let s2 := match s1.client_ with
    | some c => { call (.client_free c) s1 with client_ := none }
    | none => s1
  match s2.threaded_poll_ with
  | some p =>
    { call (.threaded_poll_free p) (call (.threaded_poll_stop p) s2) with threaded_poll_ := none }
  | none => s2

/-- `registerService(record, servicePort)`. -/
def registerService (av : Avahi) (record : ZeroconfRecord) (servicePort : Nat)
    (s : ZeroconfRegisterAvahi) : ZeroconfRegisterAvahi :=
  let s1 := { s with pendingRecord := record, servicePort_ := servicePort }
  if s1.client_.isSome then
    s1
  else
    let s2 := { call (.threaded_poll_new av.threaded_poll_new) s1 with
                threaded_poll_ := av.threaded_poll_new }
    match s2.threaded_poll_ with
    | none => emit (.error AVAHI_ERR_NO_MEMORY) s2
    | some p =>
      match av.client_new with
      | .error e =>
        let s3 := { call (.client_new (some p) none) s2 with client_ := none }
        reset (emit (.error e) s3)
      | .ok c =>
        let s3 := { call (.client_new (some p) (some c)) s2 with client_ := some c }
        let s4 := call (.threaded_poll_start p av.threaded_poll_start) s3
        if av.threaded_poll_start < 0 then
          reset (emit (.error AVAHI_ERR_FAILURE) s4)
        else
          s4

/-- `reconnectToAvahi()`, the slot connected to the timeout of `reconnectTimer_`. -/
def reconnectToAvahi (av : Avahi) (s : ZeroconfRegisterAvahi) : ZeroconfRegisterAvahi :=
  if s.needsReconnect_ then
    let s1 := { s with needsReconnect_ := false }
    let s2 := match s1.client_ with
      | some c => { call (.client_free c) s1 with client_ := none }
      | none => s1
    let s3 := match s2.group_ with
      | some g => { call (.entry_group_free g) s2 with group_ := none }
      | none => s2
    match av.client_new with
    | .ok c => { call (.client_new s3.threaded_poll_ (some c)) s3 with client_ := some c }
    | .error e =>
      emit (.error e) { call (.client_new s3.threaded_poll_ none) s3 with client_ := none }
  else
    s

/-- `create_services()`. `alt` is `avahi_alternative_service_name` (with the
conversions between `QString` and UTF-8 around it), the first number bounds the
attempts that are left, the second one is the number of the attempt. The add
operation is handed name, type and domain as C strings. -/
def create_services (alt : String → String) (av : Avahi) :
    Nat → Nat → ZeroconfRegisterAvahi → Option ZeroconfRegisterAvahi
  | 0, _, _ => none
  | fuel + 1, n, s =>
    let s1 := match s.group_ with
      | none => { call (.entry_group_new s.client_ av.entry_group_new) s with
                  group_ := av.entry_group_new }
      | some _ => s
    match s1.group_ with
    | none => some (emit (.error av.client_errno) s1)
    | some g =>
      if av.entry_group_is_empty n then
        let ret := av.entry_group_add_service n
        let s2 := call (.entry_group_add_service g
          (constData s1.pendingRecord.serviceName)
          (constData s1.pendingRecord.registeredType)
          (if s1.pendingRecord.replyDomain.isEmpty then none
           else some (constData s1.pendingRecord.replyDomain))
          s1.servicePort_ ret) s1
        if ret < 0 then
          if ret = AVAHI_ERR_COLLISION then
            let s3 := { s2 with pendingRecord :=
              { s2.pendingRecord with serviceName := alt s2.pendingRecord.serviceName } }
            let s4 := call (.entry_group_reset g) s3
            create_services alt av fuel (n + 1) s4
          else
            some (emit (.error ret) s2)
        else
          let ret2 := av.entry_group_commit
          let s3 := call (.entry_group_commit g ret2) s2
          if ret2 < 0 then
            some (emit (.error ret2) s3)
          else
            some s3
      else
        some s1

/-- `client_callback(c, state, userdata)`; `av.client_errno` is
`avahi_client_errno(c)`. -/
def client_callback (alt : String → String) (av : Avahi) (fuel : Nat)
    (state : AvahiClientState) (s : ZeroconfRegisterAvahi) : Option ZeroconfRegisterAvahi :=
  match state with
  | .S_RUNNING => create_services alt av fuel 0 s
  | .FAILURE =>
    if av.client_errno = AVAHI_ERR_DISCONNECTED then
      some { s with needsReconnect_ := true, reconnectTimer_ := some 1000 }
    else
      some (emit (.error av.client_errno) s)
  | .S_COLLISION | .S_REGISTERING =>
    match s.group_ with
    | some g => some (call (.entry_group_reset g) s)
    | none => some s
  | .CONNECTING => some s

/-- `entry_group_callback(g, state, userdata)`; `av.client_errno` is
`avahi_client_errno(avahi_entry_group_get_client(g))`. -/
def entry_group_callback (alt : String → String) (av : Avahi) (fuel : Nat)
    (state : AvahiEntryGroupState) (s : ZeroconfRegisterAvahi) : Option ZeroconfRegisterAvahi :=
  match state with
  | .ESTABLISHED =>
    let s1 := { s with finalRecord := s.pendingRecord }
    some (emit (.serviceRegistered s1.finalRecord) s1)
  | .COLLISION =>
    let s1 := { s with pendingRecord :=
      { s.pendingRecord with serviceName := alt s.pendingRecord.serviceName } }
    create_services alt av fuel 0 s1
  | .FAILURE => some (emit (.error av.client_errno) s)
  | .UNCOMMITED | .REGISTERING => some s

/-- The single-shot `reconnectTimer_` expires: it stops running and its timeout
signal runs the slot `reconnectToAvahi`. A timer that is not running does not
expire. -/
def timeout (av : Avahi) (s : ZeroconfRegisterAvahi) : ZeroconfRegisterAvahi :=
  match s.reconnectTimer_ with
  | none => s
  | some _ => reconnectToAvahi av { s with reconnectTimer_ := none }

end ZeroconfRegisterAvahi

/-- What can happen to a registrar from outside: a call of the public member
function, a callback from Avahi, or the expiry of the reconnect timer. -/
inductive Input where
  | registerService (record : ZeroconfRecord) (servicePort : Nat)
  | client_callback (state : AvahiClientState)
  | entry_group_callback (state : AvahiEntryGroupState)
  | timeout
deriving DecidableEq, Repr

namespace ZeroconfRegisterAvahi

/-- One input, handled with the answers `av` of Avahi. -/
def step (alt : String → String) (fuel : Nat) (av : Avahi) (i : Input)
    (s : ZeroconfRegisterAvahi) : Option ZeroconfRegisterAvahi :=
  match i with
  | .registerService record servicePort => some (registerService av record servicePort s)
  | .client_callback state => client_callback alt av fuel state s
  | .entry_group_callback state => entry_group_callback alt av fuel state s
  | .timeout => some (timeout av s)

/-- A sequence of inputs, each with the answers Avahi gives while it is handled. -/
def run (alt : String → String) (fuel : Nat) :
    List (Avahi × Input) → ZeroconfRegisterAvahi → Option ZeroconfRegisterAvahi
  | [], s => some s
  | (av, i) :: rest, s =>
    match step alt fuel av i s with
    | none => none
    | some s1 => run alt fuel rest s1

end ZeroconfRegisterAvahi

namespace ZeroconfRegisterAvahi

/-- The add operation `create_services` performs on the group `g` in attempt `n`:
name and type of `pendingRecord` as C strings, a null domain when `replyDomain` is
empty and its C string otherwise, the port `servicePort_`, and the answer of
Avahi. -/
def addCall (av : Avahi) (n : Nat) (g : Handle) (s : ZeroconfRegisterAvahi) : AvahiCall :=
  .entry_group_add_service g (constData s.pendingRecord.serviceName)
    (constData s.pendingRecord.registeredType)
    (if s.pendingRecord.replyDomain.isEmpty then none
     else some (constData s.pendingRecord.replyDomain))
    s.servicePort_ (av.entry_group_add_service n)

/-- What a handler other than `registerService` may do to the pending record and
to the signals: type and domain stay, the name is renamed some number of times,
and a `serviceRegistered` signal emitted carries the pending record. -/
def Advances (alt : String → String) (s s' : ZeroconfRegisterAvahi) : Prop :=
  s'.pendingRecord.registeredType = s.pendingRecord.registeredType ∧
  s'.pendingRecord.replyDomain = s.pendingRecord.replyDomain ∧
  (∃ k, s'.pendingRecord.serviceName = alt^[k] s.pendingRecord.serviceName) ∧
  ∃ emitted, s'.signals = s.signals ++ emitted ∧
    ∀ rec, Signal.serviceRegistered rec ∈ emitted → rec = s.pendingRecord

end ZeroconfRegisterAvahi

/-- Inputs that come from Avahi or from the timer, not from the caller. -/
def Input.fromProvider : Input → Bool
  | .registerService _ _ => false
  | _ => true

/-- Resets of an entry group. -/
def AvahiCall.isReset : AvahiCall → Bool
  | .entry_group_reset _ => true
  | _ => false

/-- Commits of an entry group. -/
def AvahiCall.isCommit : AvahiCall → Bool
  | .entry_group_commit _ _ => true
  | _ => false

/-- Adds of a service to an entry group. -/
def AvahiCall.isAdd : AvahiCall → Bool
  | .entry_group_add_service _ _ _ _ _ _ => true
  | _ => false

namespace ZeroconfRegisterAvahi

/-- The registrar after `k` local collisions in a row, the first one in attempt
`n`: for each collision `create_services` records the add, replaces the pending
name by its alternative and resets the group `g`. -/
def afterCollisions (alt : String → String) (av : Avahi) (g : Handle) :
    Nat → Nat → ZeroconfRegisterAvahi → ZeroconfRegisterAvahi
  | 0, _, s => s
  | k + 1, n, s =>
    afterCollisions alt av g k (n + 1)
      (call (.entry_group_reset g)
        { call (addCall av n g s) s with pendingRecord :=
          { s.pendingRecord with serviceName := alt s.pendingRecord.serviceName } })

end ZeroconfRegisterAvahi

/-- The entry a successful add puts into the group: name, type, domain (absent
for the default domain) and port. -/
def addedEntry : AvahiCall → Option (String × String × Option String × Nat)
  | .entry_group_add_service _ name type domain port ret =>
    if 0 ≤ ret then some (name, type, domain, port) else none
  | _ => none

namespace ZeroconfRegisterAvahi

/-- The service entry that stands for the pending record and the port: name and
type as C strings, the domain absent exactly when `replyDomain` is empty and its
C string otherwise. -/
def serviceEntry (s : ZeroconfRegisterAvahi) : String × String × Option String × Nat :=
  (constData s.pendingRecord.serviceName, constData s.pendingRecord.registeredType,
    if s.pendingRecord.replyDomain.isEmpty then none
    else some (constData s.pendingRecord.replyDomain),
    s.servicePort_)

end ZeroconfRegisterAvahi

/-- Operations on the contents of an entry group: add, reset and commit. -/
def AvahiCall.usesGroup (c : AvahiCall) : Bool :=
  c.isAdd || c.isReset || c.isCommit

/-- Follows the clients through a history of operations, starting with the client
`live`, if any. The result is `none` when a client is created while another one
is live, or when a client is freed that is not the live one; otherwise it is the
client that is live at the end, if any. -/
def followClients : Option Handle → List AvahiCall → Option (Option Handle)
  | live, [] => some live
  | live, .client_new _ (some c) :: rest =>
    if live.isNone then followClients (some c) rest else none
  | live, .client_free c :: rest =>
    if live = some c then followClients none rest else none
  | live, _ :: rest => followClients live rest

/-- Follows the entry groups through a history of operations, as `followClients`
does for the clients. -/
def followGroups : Option Handle → List AvahiCall → Option (Option Handle)
  | live, [] => some live
  | live, .entry_group_new _ (some g) :: rest =>
    if live.isNone then followGroups (some g) rest else none
  | live, .entry_group_free g :: rest =>
    if live = some g then followGroups none rest else none
  | live, _ :: rest => followGroups live rest

/-- Follows the threaded polls through a history of operations, as `followClients`
does for the clients. -/
def followPolls : Option Handle → List AvahiCall → Option (Option Handle)
  | live, [] => some live
  | live, .threaded_poll_new (some p) :: rest =>
    if live.isNone then followPolls (some p) rest else none
  | live, .threaded_poll_free p :: rest =>
    if live = some p then followPolls none rest else none
  | live, _ :: rest => followPolls live rest

namespace ZeroconfRegisterAvahi

/-- The held client is the one live client and the held group the one live group
of the history of operations, in which never two of a kind were live. -/
def HandlesLive (s : ZeroconfRegisterAvahi) : Prop :=
  followClients none s.calls = some s.client_ ∧ followGroups none s.calls = some s.group_

/-- A handler took the registrar from `s` to `s'` by operations that keep the
clients and the groups in step with the handles. -/
def KeepsLive (s s' : ZeroconfRegisterAvahi) : Prop :=
  ∃ added, s'.calls = s.calls ++ added ∧
    followClients s.client_ added = some s'.client_ ∧
    followGroups s.group_ added = some s'.group_

end ZeroconfRegisterAvahi

/-- A callback is delivered for an object that exists: a client callback while a
client is held, a group callback while a group is held. A call by the caller and
an expiry of the timer can happen in every state. -/
def Input.deliverable (i : Input) (s : ZeroconfRegisterAvahi) : Bool :=
  match i with
  | .client_callback _ => s.client_.isSome
  | .entry_group_callback _ => s.group_.isSome
  | _ => true

/-- An operation that is handed the object it works on: no group is requested on
a null client and no client on a null poll. -/
def AvahiCall.addressed : AvahiCall → Bool
  | .entry_group_new none _ => false
  | .client_new none _ => false
  | _ => true

namespace ZeroconfRegisterAvahi

/-- Every callback of the sequence is delivered while its object is held. -/
def allDelivered (alt : String → String) (fuel : Nat) :
    List (Avahi × Input) → ZeroconfRegisterAvahi → Bool
  | [], _ => true
  | (av, i) :: rest, s =>
    i.deliverable s &&
      match step alt fuel av i s with
      | none => true
      | some s1 => allDelivered alt fuel rest s1

/-- Consistency of the handles: a held group comes with a held client, a held
client with a held poll, and a wanted reconnect with a held client. -/
def Consistent (s : ZeroconfRegisterAvahi) : Prop :=
  (s.group_.isSome = true → s.client_.isSome = true) ∧
  (s.client_.isSome = true → s.threaded_poll_.isSome = true) ∧
  (s.needsReconnect_ = true → s.client_.isSome = true)

/-- A handler took the registrar from `s` to `s'` by operations that were all
handed their object. -/
def AddsAddressed (s s' : ZeroconfRegisterAvahi) : Prop :=
  ∃ added, s'.calls = s.calls ++ added ∧ ∀ c ∈ added, c.addressed = true

end ZeroconfRegisterAvahi

/-- Frees of an entry group or of a client. -/
def AvahiCall.isRelease : AvahiCall → Bool
  | .entry_group_free _ => true
  | .client_free _ => true
  | _ => false

/-- The frees of groups and clients in a history of operations, in their order. -/
def releases (calls : List AvahiCall) : List AvahiCall :=
  calls.filter AvahiCall.isRelease

/-- The order of a teardown as the specification words it for every path: the
entry group `g` is released first, the connection `c` that owns it second. -/
def groupThenClient (g c : Handle) : List AvahiCall :=
  [.entry_group_free g, .client_free c]

/-! ## Sample values

Concrete records and daemon answers at which the theorems below are evaluated. -/

namespace Sample

/-- The record of the first end-to-end scenario of the specification. -/
def workstation : ZeroconfRecord := ⟨"Workstation", "_input._tcp", ""⟩

/-- A second record, different from `workstation` in every field. -/
def laptop : ZeroconfRecord := ⟨"Laptop", "_leap._tcp", "local"⟩

/-- A daemon on which everything succeeds: poll 1, client 2, group 3, an empty
group, no error. -/
def daemon : Avahi :=
  { threaded_poll_new := some 1
    client_new := .ok 2
    threaded_poll_start := 0
    client_errno := 0
    entry_group_new := some 3
    entry_group_is_empty := fun _ => true
    entry_group_add_service := fun _ => 0
    entry_group_commit := 0 }

/-- A daemon whose client reports the loss of the connection. -/
def disconnected : Avahi := { daemon with client_errno := AVAHI_ERR_DISCONNECTED }

/-- A daemon that hands out client 4 and group 5, as after a restart. -/
def restarted : Avahi := { daemon with client_new := .ok 4, entry_group_new := some 5 }

/-- A daemon that can create no client: `avahi_client_new` fails with `AVAHI_ERR_NO_MEMORY`. -/
def exhausted : Avahi := { daemon with client_new := .error AVAHI_ERR_NO_MEMORY }

/-- A daemon on which the first add of a service collides with a local name. -/
def collidingOnce : Avahi :=
  { daemon with entry_group_add_service := fun n => if n = 0 then AVAHI_ERR_COLLISION else 0 }

/-- A name generator that appends a mark, so that it never leads back to a name. -/
def appendMark (name : String) : String := name ++ "#"

/-- A registrar in the middle of a session: all three handles held, the service
`workstation` pending on port 24800. -/
def active : ZeroconfRegisterAvahi :=
  { ZeroconfRegisterAvahi.new with
    client_ := some 2
    group_ := some 3
    threaded_poll_ := some 1
    pendingRecord := workstation
    servicePort_ := 24800 }

/-- A daemon on which the first two adds of a service collide with local names. -/
def collidingTwice : Avahi :=
  { daemon with entry_group_add_service := fun n => if n < 2 then AVAHI_ERR_COLLISION else 0 }

/-- A daemon whose client reports exhausted memory. -/
def outOfMemory : Avahi := { daemon with client_errno := AVAHI_ERR_NO_MEMORY }

/-- A daemon that can create no threaded poll. -/
def noPoll : Avahi := { daemon with threaded_poll_new := none }

/-- A daemon on which the poll loop does not start. -/
def noStart : Avahi := { daemon with threaded_poll_start := -1 }

/-- A daemon on which the add of a service fails with the generic failure code. -/
def addFails : Avahi := { daemon with entry_group_add_service := fun _ => AVAHI_ERR_FAILURE }

/-- A daemon on which the commit of the group fails with the generic failure code. -/
def commitFails : Avahi := { daemon with entry_group_commit := AVAHI_ERR_FAILURE }

/-- A registration, the report Running, a disconnect, the expiry of the timer on a
restarted daemon and the report Running of the new client. -/
def reconnectSession : List (Avahi × Input) :=
  [(daemon, .registerService workstation 24800), (daemon, .client_callback .S_RUNNING),
   (disconnected, .client_callback .FAILURE), (restarted, .timeout),
   (restarted, .client_callback .S_RUNNING)]

/-- A daemon that hands out the threaded poll 6 and the client 4. -/
def secondPoll : Avahi := { daemon with threaded_poll_new := some 6, client_new := .ok 4 }

/-- A registration, a disconnect, a reconnect that gets no client, and a second
registration. -/
def retrySession : List (Avahi × Input) :=
  [(daemon, .registerService workstation 24800), (disconnected, .client_callback .FAILURE),
   (exhausted, .timeout), (secondPoll, .registerService workstation 24800)]

/-- A registration, the report Running and a disconnect: client 2 and group 3 are
held and a reconnect is wanted. -/
def disconnectedSession : List (Avahi × Input) :=
  [(daemon, .registerService workstation 24800), (daemon, .client_callback .S_RUNNING),
   (disconnected, .client_callback .FAILURE)]

/-- A record whose name holds the character U+0000 and whose domain starts with it. -/
def nulRecord : ZeroconfRecord := ⟨"a\x00b", "_input._tcp", "\x00local"⟩

end Sample

/-! ## Theorems -/

namespace ZeroconfRegisterAvahi

/-! ### The cases of create_services -/

/-- No attempt is left: the model gives no result. -/
theorem create_services_zero (alt : String → String) (av : Avahi) (n : Nat)
    (s : ZeroconfRegisterAvahi) : create_services alt av 0 n s = none := rfl

/-- No group held and `avahi_entry_group_new` fails: one error with the code of the client. -/
theorem create_services_group_failed (alt : String → String) (av : Avahi) (fuel n : Nat)
    (s : ZeroconfRegisterAvahi) (hg : s.group_ = none) (hn : av.entry_group_new = none) :
    create_services alt av (fuel + 1) n s =
      some (emit (.error av.client_errno) (call (.entry_group_new s.client_ none) s)) := by
  cases s
  simp_all [create_services, emit, call]

/-- No group held and `avahi_entry_group_new` succeeds: the new group is stored and the call goes on as with a held group. -/
theorem create_services_group_created (alt : String → String) (av : Avahi) (fuel n : Nat)
    (s : ZeroconfRegisterAvahi) (g : Handle) (hg : s.group_ = none)
    (hn : av.entry_group_new = some g) :
    create_services alt av (fuel + 1) n s =
      create_services alt av (fuel + 1) n
        { call (.entry_group_new s.client_ (some g)) s with group_ := some g } := by
  simp [create_services, hg, hn, call]

/-- The held group is not empty: nothing is added or committed. -/
theorem create_services_not_empty (alt : String → String) (av : Avahi) (fuel n : Nat)
    (s : ZeroconfRegisterAvahi) (g : Handle) (hg : s.group_ = some g)
    (he : av.entry_group_is_empty n = false) :
    create_services alt av (fuel + 1) n s = some s := by
  simp [create_services, hg, he]

/-- The add succeeds: the group is committed, and a failed commit emits its code. -/
theorem create_services_committed (alt : String → String) (av : Avahi) (fuel n : Nat)
    (s : ZeroconfRegisterAvahi) (g : Handle) (hg : s.group_ = some g)
    (he : av.entry_group_is_empty n = true) (ha : 0 ≤ av.entry_group_add_service n) :
    create_services alt av (fuel + 1) n s =
      some (if av.entry_group_commit < 0 then
          emit (.error av.entry_group_commit)
            (call (.entry_group_commit g av.entry_group_commit) (call (addCall av n g s) s))
        else call (.entry_group_commit g av.entry_group_commit) (call (addCall av n g s) s)) := by
  have h1 := not_lt.mpr ha
  by_cases hc : av.entry_group_commit < 0 <;>
    simp [create_services, hg, he, h1, hc, addCall]

/-- The add fails with a code other than a collision: that code is emitted. -/
theorem create_services_add_failed (alt : String → String) (av : Avahi) (fuel n : Nat)
    (s : ZeroconfRegisterAvahi) (g : Handle) (hg : s.group_ = some g)
    (he : av.entry_group_is_empty n = true) (ha : av.entry_group_add_service n < 0)
    (hc : av.entry_group_add_service n ≠ AVAHI_ERR_COLLISION) :
    create_services alt av (fuel + 1) n s =
      some (emit (.error (av.entry_group_add_service n)) (call (addCall av n g s) s)) := by
  simp [create_services, hg, he, ha, hc, addCall]

/-- The add collides with a local name: the pending name is replaced, the group reset, and the next attempt starts. -/
theorem create_services_collision (alt : String → String) (av : Avahi) (fuel n : Nat)
    (s : ZeroconfRegisterAvahi) (g : Handle) (hg : s.group_ = some g)
    (he : av.entry_group_is_empty n = true)
    (hc : av.entry_group_add_service n = AVAHI_ERR_COLLISION) :
    create_services alt av (fuel + 1) n s =
      create_services alt av fuel (n + 1)
        (call (.entry_group_reset g)
          { call (addCall av n g s) s with pendingRecord :=
            { s.pendingRecord with serviceName := alt s.pendingRecord.serviceName } }) := by
  have ha : AVAHI_ERR_COLLISION < 0 := by decide
  simp [create_services, hg, he, ha, hc, addCall, call]



/-- With a group held, `create_services` keeps every member but the pending name, the signals and the operations called; it emits at most one error. -/
theorem create_services_loop_frame (alt : String → String) (av : Avahi) :
    ∀ (fuel n : Nat) (s s' : ZeroconfRegisterAvahi) (g : Handle), s.group_ = some g →
      create_services alt av fuel n s = some s' →
      s'.client_ = s.client_ ∧ s'.group_ = s.group_ ∧ s'.threaded_poll_ = s.threaded_poll_ ∧
      s'.finalRecord = s.finalRecord ∧ s'.servicePort_ = s.servicePort_ ∧
      s'.reconnectTimer_ = s.reconnectTimer_ ∧ s'.needsReconnect_ = s.needsReconnect_ ∧
      s'.pendingRecord.registeredType = s.pendingRecord.registeredType ∧
      s'.pendingRecord.replyDomain = s.pendingRecord.replyDomain ∧
      (∃ k, s'.pendingRecord.serviceName = alt^[k] s.pendingRecord.serviceName) ∧
      (s'.signals = s.signals ∨ ∃ e, s'.signals = s.signals ++ [.error e]) := by
  intro fuel
  induction fuel with
  | zero => intro n s s' g _ h; simp [create_services] at h
  | succ fuel ih =>
    intro n s s' g hg h
    by_cases he : av.entry_group_is_empty n = true
    · by_cases hc : av.entry_group_add_service n = AVAHI_ERR_COLLISION
      · rw [create_services_collision alt av fuel n s g hg he hc] at h
        obtain ⟨h1, h2, h3, h4, h5, h6, h7, h8, h9, ⟨k, h10⟩, h11⟩ := ih _ _ _ g (by exact hg) h
        exact ⟨h1, h2, h3, h4, h5, h6, h7, h8, h9, ⟨k + 1, h10⟩, h11⟩
      · by_cases ha : av.entry_group_add_service n < 0
        · rw [create_services_add_failed alt av fuel n s g hg he ha hc] at h
          injection h with h; subst h
          exact ⟨rfl, rfl, rfl, rfl, rfl, rfl, rfl, rfl, rfl, ⟨0, rfl⟩, Or.inr ⟨_, rfl⟩⟩
        · rw [create_services_committed alt av fuel n s g hg he (not_lt.mp ha)] at h
          injection h with h; subst h
          by_cases hcm : av.entry_group_commit < 0
          · simp only [hcm, if_true]
            exact ⟨rfl, rfl, rfl, rfl, rfl, rfl, rfl, rfl, rfl, ⟨0, rfl⟩, Or.inr ⟨_, rfl⟩⟩
          · simp only [hcm, if_false]
            exact ⟨rfl, rfl, rfl, rfl, rfl, rfl, rfl, rfl, rfl, ⟨0, rfl⟩, Or.inl rfl⟩
    · rw [create_services_not_empty alt av fuel n s g hg (by simpa using he)] at h
      injection h with h; subst h
      exact ⟨rfl, rfl, rfl, rfl, rfl, rfl, rfl, rfl, rfl, ⟨0, rfl⟩, Or.inl rfl⟩

/-- `create_services` keeps client, poll, final record, port, timer and flag, renames the pending record some number of times and emits at most one error. -/
theorem create_services_frame (alt : String → String) (av : Avahi) (fuel n : Nat)
    (s s' : ZeroconfRegisterAvahi) (h : create_services alt av fuel n s = some s') :
    s'.client_ = s.client_ ∧ s'.threaded_poll_ = s.threaded_poll_ ∧
    s'.finalRecord = s.finalRecord ∧ s'.servicePort_ = s.servicePort_ ∧
    s'.reconnectTimer_ = s.reconnectTimer_ ∧ s'.needsReconnect_ = s.needsReconnect_ ∧
    s'.pendingRecord.registeredType = s.pendingRecord.registeredType ∧
    s'.pendingRecord.replyDomain = s.pendingRecord.replyDomain ∧
    (∃ k, s'.pendingRecord.serviceName = alt^[k] s.pendingRecord.serviceName) ∧
    (s'.signals = s.signals ∨ ∃ e, s'.signals = s.signals ++ [.error e]) := by
  cases fuel with
  | zero => simp [create_services] at h
  | succ fuel =>
    cases hg : s.group_ with
    | some g =>
      obtain ⟨h1, _, h3⟩ := create_services_loop_frame alt av _ _ _ _ g hg h
      exact ⟨h1, h3⟩
    | none =>
      cases hn : av.entry_group_new with
      | none =>
        rw [create_services_group_failed alt av fuel n s hg hn] at h
        injection h with h; subst h
        exact ⟨rfl, rfl, rfl, rfl, rfl, rfl, rfl, rfl, ⟨0, rfl⟩, Or.inr ⟨_, rfl⟩⟩
      | some g =>
        rw [create_services_group_created alt av fuel n s g hg hn] at h
        obtain ⟨h1, _, h3⟩ := create_services_loop_frame alt av _ _ _ _ g rfl h
        exact ⟨h1, h3⟩

/-! ### registerService on an active registrar -/

/-- With a client held, `registerService` performs no operation and emits no
signal, and stores the new record and port. -/
theorem registerService_of_client (av : Avahi) (record : ZeroconfRecord) (servicePort : Nat)
    (s : ZeroconfRegisterAvahi) (h : s.client_.isSome = true) :
    registerService av record servicePort s =
      { s with pendingRecord := record, servicePort_ := servicePort } := by
  simp [registerService, h]

/-- C1, evaluated where the code departs from it: `registerService(workstation,
24800)` on a new registrar opens a session; a second call
`registerService(laptop, 1)` with the client held keeps the three handles and
emits nothing, but it overwrites `pendingRecord` and `servicePort_`; when the
daemon then reports Running and Established, the service is added under the name,
type, domain and port of the second call and the Registered signal carries the
second record. -/
theorem registerService_twice_second_record_wins :
    (registerService Sample.daemon Sample.workstation 24800 new).client_ = some 2 ∧
    (registerService Sample.daemon Sample.workstation 24800 new).pendingRecord
      = Sample.workstation ∧
    (registerService Sample.daemon Sample.laptop 1
        (registerService Sample.daemon Sample.workstation 24800 new))
      = { registerService Sample.daemon Sample.workstation 24800 new with
          pendingRecord := Sample.laptop, servicePort_ := 1 } ∧
    (run id 1 [(Sample.daemon, .registerService Sample.workstation 24800),
        (Sample.daemon, .registerService Sample.laptop 1),
        (Sample.daemon, .client_callback .S_RUNNING),
        (Sample.daemon, .entry_group_callback .ESTABLISHED)] new).map
        (fun s => (s.signals, s.calls.drop 3))
      = some ([.serviceRegistered Sample.laptop],
          [.entry_group_new (some 2) (some 3),
           .entry_group_add_service 3 "Laptop" "_leap._tcp" (some "local") 1 0,
           .entry_group_commit 3 0]) := by
  decide

/-! ### The plain registration -/

/-- C2: from a new registrar, when `registerService(r, p)` gets its threaded poll,
its client and a started poll loop (otherwise it resets itself and no callback
follows), the client then reports Running with the group created, empty, the add
and the commit successful, and the group then reports Established, the signals
emitted are exactly one `serviceRegistered(r)` and `registeredRecord()` is `r`. -/
theorem register_running_established (alt : String → String) (r : ZeroconfRecord)
    (p fuel : Nat) (av0 av1 av2 : Avahi) (poll c g : Handle)
    (hpoll : av0.threaded_poll_new = some poll) (hclient : av0.client_new = .ok c)
    (hstart : 0 ≤ av0.threaded_poll_start)
    (hgroup : av1.entry_group_new = some g) (hempty : av1.entry_group_is_empty 0 = true)
    (hadd : 0 ≤ av1.entry_group_add_service 0) (hcommit : 0 ≤ av1.entry_group_commit) :
    ∃ s, run alt (fuel + 1) [(av0, .registerService r p), (av1, .client_callback .S_RUNNING),
        (av2, .entry_group_callback .ESTABLISHED)] new = some s ∧
      s.signals = [.serviceRegistered r] ∧ registeredRecord s = r := by
  have h1 := not_lt.mpr hstart
  have h2 := not_lt.mpr hadd
  have h3 := not_lt.mpr hcommit
  simp [run, step, registerService, new, call, emit, client_callback, create_services,
    entry_group_callback, registeredRecord, hpoll, hclient, hgroup, hempty, h1, h2, h3]

/-- C2 at the record of the specification: `workstation` on port 24800. -/
theorem register_running_established_workstation :
    ∃ s, run id 1 [(Sample.daemon, .registerService Sample.workstation 24800),
        (Sample.daemon, .client_callback .S_RUNNING),
        (Sample.daemon, .entry_group_callback .ESTABLISHED)] new = some s ∧
      s.signals = [.serviceRegistered Sample.workstation] ∧
      registeredRecord s = Sample.workstation :=
  register_running_established id Sample.workstation 24800 0 Sample.daemon Sample.daemon
    Sample.daemon 1 2 3 rfl rfl (by decide) rfl rfl (by decide) (by decide)

/-! ### What the handlers leave unchanged -/

/-- `reset()` touches only the three handles and the operations called. -/
theorem reset_frame (s : ZeroconfRegisterAvahi) :
    (reset s).pendingRecord = s.pendingRecord ∧ (reset s).finalRecord = s.finalRecord ∧
    (reset s).servicePort_ = s.servicePort_ ∧ (reset s).reconnectTimer_ = s.reconnectTimer_ ∧
    (reset s).needsReconnect_ = s.needsReconnect_ ∧ (reset s).signals = s.signals := by
  obtain ⟨c, g, p, _, _, _, _, _, _, _⟩ := s
  cases c <;> cases g <;> cases p <;> exact ⟨rfl, rfl, rfl, rfl, rfl, rfl⟩

/-- `reconnectToAvahi()` keeps records, port, poll and timer and emits at most one error. -/
theorem reconnectToAvahi_frame (av : Avahi) (s : ZeroconfRegisterAvahi) :
    (reconnectToAvahi av s).pendingRecord = s.pendingRecord ∧
    (reconnectToAvahi av s).finalRecord = s.finalRecord ∧
    (reconnectToAvahi av s).servicePort_ = s.servicePort_ ∧
    (reconnectToAvahi av s).threaded_poll_ = s.threaded_poll_ ∧
    (reconnectToAvahi av s).reconnectTimer_ = s.reconnectTimer_ ∧
    ((reconnectToAvahi av s).signals = s.signals ∨
      ∃ e, (reconnectToAvahi av s).signals = s.signals ++ [.error e]) := by
  obtain ⟨c, g, _, _, _, _, _, flag, _, _⟩ := s
  unfold reconnectToAvahi
  cases flag
  · exact ⟨rfl, rfl, rfl, rfl, rfl, Or.inl rfl⟩
  · cases c <;> cases g <;> cases av.client_new <;>
      first
        | exact ⟨rfl, rfl, rfl, rfl, rfl, Or.inl rfl⟩
        | exact ⟨rfl, rfl, rfl, rfl, rfl, Or.inr ⟨_, rfl⟩⟩

/-- `registerService` stores record and port in every branch, keeps the final record and emits at most one error. -/
theorem registerService_frame (av : Avahi) (r : ZeroconfRecord) (p : Nat)
    (s : ZeroconfRegisterAvahi) :
    (registerService av r p s).pendingRecord = r ∧
    (registerService av r p s).servicePort_ = p ∧
    (registerService av r p s).finalRecord = s.finalRecord ∧
    ((registerService av r p s).signals = s.signals ∨
      ∃ e, (registerService av r p s).signals = s.signals ++ [.error e]) := by
  unfold registerService
  cases s.client_ with
  | some c => exact ⟨rfl, rfl, rfl, Or.inl rfl⟩
  | none =>
    cases av.threaded_poll_new with
    | none => exact ⟨rfl, rfl, rfl, Or.inr ⟨_, rfl⟩⟩
    | some poll =>
      cases av.client_new with
      | error e =>
        simp only [Option.isSome_none, Bool.false_eq_true, if_false]
        obtain ⟨h1, h2, h3, _, _, h6⟩ := reset_frame
          (emit (.error e) { call (.client_new (some poll) none)
            { call (.threaded_poll_new (some poll))
                { s with pendingRecord := r, servicePort_ := p } with
              threaded_poll_ := some poll } with client_ := none })
        exact ⟨h1, h3, h2, Or.inr ⟨e, h6⟩⟩
      | ok c =>
        simp only [Option.isSome_none, Bool.false_eq_true, if_false]
        by_cases hs : av.threaded_poll_start < 0
        · simp only [hs, if_true]
          obtain ⟨h1, h2, h3, _, _, h6⟩ := reset_frame
            (emit (.error AVAHI_ERR_FAILURE) (call (.threaded_poll_start poll av.threaded_poll_start)
              { call (.client_new (some poll) (some c))
                { call (.threaded_poll_new (some poll))
                    { s with pendingRecord := r, servicePort_ := p } with
                  threaded_poll_ := some poll } with client_ := some c }))
          exact ⟨h1, h3, h2, Or.inr ⟨_, h6⟩⟩
        · simp only [hs, if_false]
          exact ⟨rfl, rfl, rfl, Or.inl rfl⟩

/-- An unchanged registrar. -/
theorem Advances.refl (alt : String → String) (s : ZeroconfRegisterAvahi) : Advances alt s s :=
  ⟨rfl, rfl, ⟨0, rfl⟩, [], by simp, by simp⟩

/-- A handler that keeps type and domain, renames, and emits at most one error. -/
theorem advances_of_frame (alt : String → String) (s s' : ZeroconfRegisterAvahi)
    (h1 : s'.pendingRecord.registeredType = s.pendingRecord.registeredType)
    (h2 : s'.pendingRecord.replyDomain = s.pendingRecord.replyDomain)
    (h3 : ∃ k, s'.pendingRecord.serviceName = alt^[k] s.pendingRecord.serviceName)
    (h4 : s'.signals = s.signals ∨ ∃ e, s'.signals = s.signals ++ [.error e]) :
    Advances alt s s' := by
  refine ⟨h1, h2, h3, ?_⟩
  rcases h4 with h4 | ⟨e, h4⟩
  · exact ⟨[], by simp [h4], by simp⟩
  · exact ⟨[.error e], h4, by simp⟩

/-- Every client callback keeps the type and domain of the pending record and announces no record. -/
theorem client_callback_advances (alt : String → String) (av : Avahi) (fuel : Nat)
    (state : AvahiClientState) (s s' : ZeroconfRegisterAvahi)
    (h : client_callback alt av fuel state s = some s') : Advances alt s s' := by
  cases state with
  | S_RUNNING =>
    obtain ⟨_, _, _, _, _, _, h7, h8, h9, h10⟩ := create_services_frame alt av fuel 0 s s' h
    exact advances_of_frame alt s s' h7 h8 h9 h10
  | FAILURE =>
    unfold client_callback at h
    by_cases he : av.client_errno = AVAHI_ERR_DISCONNECTED
    · simp only [he, if_true] at h
      injection h with h; subst h
      exact advances_of_frame alt _ _ rfl rfl ⟨0, rfl⟩ (Or.inl rfl)
    · simp only [he, if_false] at h
      injection h with h; subst h
      exact advances_of_frame alt _ _ rfl rfl ⟨0, rfl⟩ (Or.inr ⟨_, rfl⟩)
  | S_COLLISION =>
    unfold client_callback at h
    cases hg : s.group_ <;> simp only [hg] at h <;> injection h with h <;> subst h <;>
      exact advances_of_frame alt _ _ rfl rfl ⟨0, rfl⟩ (Or.inl rfl)
  | S_REGISTERING =>
    unfold client_callback at h
    cases hg : s.group_ <;> simp only [hg] at h <;> injection h with h <;> subst h <;>
      exact advances_of_frame alt _ _ rfl rfl ⟨0, rfl⟩ (Or.inl rfl)
  | CONNECTING =>
    injection h with h; subst h
    exact Advances.refl alt s

/-- Every group callback keeps the type and domain of the pending record; Established announces the pending record. -/
theorem entry_group_callback_advances (alt : String → String) (av : Avahi) (fuel : Nat)
    (state : AvahiEntryGroupState) (s s' : ZeroconfRegisterAvahi)
    (h : entry_group_callback alt av fuel state s = some s') : Advances alt s s' := by
  cases state with
  | ESTABLISHED =>
    injection h with h; subst h
    exact ⟨rfl, rfl, ⟨0, rfl⟩, [.serviceRegistered s.pendingRecord], rfl, by simp⟩
  | COLLISION =>
    obtain ⟨_, _, _, _, _, _, h7, h8, ⟨k, h9⟩, h10⟩ := create_services_frame alt av fuel 0 _ s' h
    exact advances_of_frame alt s s' h7 h8 ⟨k + 1, h9⟩ h10
  | FAILURE =>
    injection h with h; subst h
    exact advances_of_frame alt _ _ rfl rfl ⟨0, rfl⟩ (Or.inr ⟨_, rfl⟩)
  | UNCOMMITED =>
    injection h with h; subst h
    exact Advances.refl alt s
  | REGISTERING =>
    injection h with h; subst h
    exact Advances.refl alt s

/-- An expiry of the timer keeps the pending record and announces no record. -/
theorem timeout_advances (alt : String → String) (av : Avahi) (s : ZeroconfRegisterAvahi) :
    Advances alt s (timeout av s) := by
  unfold timeout
  cases ht : s.reconnectTimer_ with
  | none => exact Advances.refl alt s
  | some ms =>
    obtain ⟨h1, _, _, _, _, h6⟩ := reconnectToAvahi_frame av { s with reconnectTimer_ := none }
    exact advances_of_frame alt s _ (by rw [h1]) (by rw [h1]) ⟨0, by rw [h1]; rfl⟩ h6

/-- Every input from Avahi or the timer keeps the type and domain of the pending record. -/
theorem step_advances (alt : String → String) (fuel : Nat) (av : Avahi) (i : Input)
    (s s' : ZeroconfRegisterAvahi) (hi : i.fromProvider = true)
    (h : step alt fuel av i s = some s') : Advances alt s s' := by
  cases i with
  | registerService r p => simp [Input.fromProvider] at hi
  | client_callback state => exact client_callback_advances alt av fuel state s s' h
  | entry_group_callback state => exact entry_group_callback_advances alt av fuel state s s' h
  | timeout =>
    injection h with h; subst h
    exact timeout_advances alt av s

/-! ### Records announced in a session -/

/-- A session for the record `r`: along inputs from Avahi and the timer, the pending
record keeps the type and domain of `r` and a name renamed from that of `r`, and
so does every record announced by `serviceRegistered`. -/
theorem run_session (alt : String → String) (fuel : Nat) (r : ZeroconfRecord) :
    ∀ (inputs : List (Avahi × Input)) (s s' : ZeroconfRegisterAvahi),
      (∀ x ∈ inputs, x.2.fromProvider = true) →
      s.pendingRecord.registeredType = r.registeredType →
      s.pendingRecord.replyDomain = r.replyDomain →
      (∃ k, s.pendingRecord.serviceName = alt^[k] r.serviceName) →
      run alt fuel inputs s = some s' →
      ∃ emitted, s'.signals = s.signals ++ emitted ∧
        ∀ rec, Signal.serviceRegistered rec ∈ emitted →
          rec.registeredType = r.registeredType ∧ rec.replyDomain = r.replyDomain ∧
          ∃ k, rec.serviceName = alt^[k] r.serviceName := by
  intro inputs
  induction inputs with
  | nil =>
    intro s s' _ _ _ _ h
    injection h with h; subst h
    exact ⟨[], by simp, by simp⟩
  | cons x rest ih =>
    intro s s' hin ht hd hn h
    obtain ⟨av, i⟩ := x
    rw [run] at h
    cases hs : step alt fuel av i s with
    | none => simp [hs] at h
    | some s1 =>
      simp only [hs] at h
      obtain ⟨a1, a2, ⟨k1, a3⟩, e1, a4, a5⟩ :=
        step_advances alt fuel av i s s1 (hin (av, i) (by simp)) hs
      obtain ⟨k0, hn⟩ := hn
      obtain ⟨e2, b1, b2⟩ := ih s1 s' (fun x hx => hin x (by simp [hx])) (a1.trans ht)
        (a2.trans hd) ⟨k1 + k0, by rw [a3, hn, Function.iterate_add_apply]⟩ h
      refine ⟨e1 ++ e2, by rw [b1, a4, List.append_assoc], ?_⟩
      intro rec hrec
      rcases List.mem_append.mp hrec with hrec | hrec
      · rw [a5 rec hrec]
        exact ⟨ht, hd, k0, hn⟩
      · exact b2 rec hrec

/-- C3: in a session started by `registerService(r, p)` (on any registrar, idle
ones included) and driven by any client callbacks, group callbacks and timer
expiries, every `serviceRegistered` signal carries the type and the domain of `r`
and a name `alt^[k] r.serviceName`: the name of `r` for `k = 0`, the name
generator applied `k` times otherwise. And when a new registrar is registered,
reports Running, then a remote collision, then Established, with every operation
on the empty group successful, exactly one signal is emitted: `serviceRegistered`
with the name `alt r.serviceName`. -/
theorem registered_record_renamed_from_request (alt : String → String) (r : ZeroconfRecord)
    (p : Nat) :
    (∀ (fuel : Nat) (av0 : Avahi) (inputs : List (Avahi × Input))
        (s0 s' : ZeroconfRegisterAvahi),
      (∀ x ∈ inputs, x.2.fromProvider = true) →
      run alt fuel ((av0, .registerService r p) :: inputs) s0 = some s' →
      ∃ emitted, s'.signals = s0.signals ++ emitted ∧
        ∀ rec, Signal.serviceRegistered rec ∈ emitted →
          rec.registeredType = r.registeredType ∧ rec.replyDomain = r.replyDomain ∧
          ∃ k, rec.serviceName = alt^[k] r.serviceName) ∧
    (∀ (fuel : Nat) (av0 av1 av2 av3 : Avahi) (poll c g : Handle),
      av0.threaded_poll_new = some poll → av0.client_new = .ok c →
      0 ≤ av0.threaded_poll_start →
      av1.entry_group_new = some g → av1.entry_group_is_empty 0 = true →
      0 ≤ av1.entry_group_add_service 0 → 0 ≤ av1.entry_group_commit →
      av2.entry_group_is_empty 0 = true →
      0 ≤ av2.entry_group_add_service 0 → 0 ≤ av2.entry_group_commit →
      ∃ s, run alt (fuel + 1) [(av0, .registerService r p),
          (av1, .client_callback .S_RUNNING), (av2, .entry_group_callback .COLLISION),
          (av3, .entry_group_callback .ESTABLISHED)] new = some s ∧
        s.signals = [.serviceRegistered { r with serviceName := alt r.serviceName }]) := by
  constructor
  · intro fuel av0 inputs s0 s' hin h
    rw [run] at h
    simp only [step] at h
    obtain ⟨h1, _, _, h4⟩ := registerService_frame av0 r p s0
    obtain ⟨e2, b1, b2⟩ := run_session alt fuel r inputs _ s' hin (by rw [h1]) (by rw [h1])
      ⟨0, by rw [h1]; rfl⟩ h
    rcases h4 with h4 | ⟨e, h4⟩
    · exact ⟨e2, by rw [b1, h4], b2⟩
    · refine ⟨.error e :: e2, by rw [b1, h4]; simp, ?_⟩
      intro rec hrec
      simp only [List.mem_cons, reduceCtorEq, false_or] at hrec
      exact b2 rec hrec
  · intro fuel av0 av1 av2 av3 poll c g hpoll hclient hstart hgroup hempty hadd hcommit
      hempty2 hadd2 hcommit2
    have h1 := not_lt.mpr hstart
    have h2 := not_lt.mpr hadd
    have h3 := not_lt.mpr hcommit
    have h4 := not_lt.mpr hadd2
    have h5 := not_lt.mpr hcommit2
    simp [run, step, registerService, new, call, emit, client_callback, create_services,
      entry_group_callback, hpoll, hclient, hgroup, hempty, hempty2, h1, h2, h3, h4, h5]

/-- C3 at `workstation` with the generator that appends a mark: after one remote
collision the one signal announces the name with one mark. -/
theorem registered_record_renamed_workstation :
    ∃ s, run Sample.appendMark 1 [(Sample.daemon, .registerService Sample.workstation 24800),
        (Sample.daemon, .client_callback .S_RUNNING),
        (Sample.daemon, .entry_group_callback .COLLISION),
        (Sample.daemon, .entry_group_callback .ESTABLISHED)] new = some s ∧
      s.signals = [.serviceRegistered
        { Sample.workstation with serviceName := Sample.appendMark "Workstation" }] :=
  (registered_record_renamed_from_request Sample.appendMark Sample.workstation 24800).2
    0 Sample.daemon Sample.daemon Sample.daemon Sample.daemon 1 2 3 rfl rfl (by decide) rfl rfl
    (by decide) (by decide) rfl (by decide) (by decide)

/-! ### Names after a collision -/

/-- A Disconnected failure sets the flag and arms the timer. -/
theorem client_callback_disconnected (alt : String → String) (fuel : Nat) (av : Avahi)
    (s : ZeroconfRegisterAvahi) (h : av.client_errno = AVAHI_ERR_DISCONNECTED) :
    client_callback alt av fuel .FAILURE s =
      some { s with needsReconnect_ := true, reconnectTimer_ := some 1000 } := by
  simp [client_callback, h]

/-- Further Disconnected failures leave the flag set and the timer armed as they are. -/
theorem run_disconnected (alt : String → String) (fuel : Nat) :
    ∀ (avs : List Avahi) (s : ZeroconfRegisterAvahi),
      (∀ a ∈ avs, a.client_errno = AVAHI_ERR_DISCONNECTED) →
      run alt fuel (avs.map (fun a => (a, Input.client_callback .FAILURE)))
          { s with needsReconnect_ := true, reconnectTimer_ := some 1000 } =
        some { s with needsReconnect_ := true, reconnectTimer_ := some 1000 } := by
  intro avs
  induction avs with
  | nil => intro s _; rfl
  | cons a rest ih =>
    intro s h
    rw [List.map_cons, run]
    simp only [step]
    rw [client_callback_disconnected alt fuel a _ (h a (by simp))]
    exact ih s (fun b hb => h b (by simp [hb]))

/-- The slot with the flag set: what it frees, requests, stores and emits. -/
theorem reconnectToAvahi_of_flag (av : Avahi) (s : ZeroconfRegisterAvahi)
    (h : s.needsReconnect_ = true) :
    (reconnectToAvahi av s).needsReconnect_ = false ∧
    (reconnectToAvahi av s).group_ = none ∧
    (reconnectToAvahi av s).client_ = av.client_new.toOption ∧
    (reconnectToAvahi av s).calls = s.calls ++ (s.client_.map AvahiCall.client_free).toList ++
      (s.group_.map AvahiCall.entry_group_free).toList ++
      [.client_new s.threaded_poll_ av.client_new.toOption] ∧
    (reconnectToAvahi av s).signals = s.signals ++
      (match av.client_new with
       | .ok _ => []
       | .error e => [.error e]) := by
  obtain ⟨c, g, p, _, _, _, _, flag, sig, cs⟩ := s
  simp only at h
  subst h
  unfold reconnectToAvahi
  cases c <;> cases g <;> cases hav : av.client_new <;>
    simp [call, emit, Except.toOption, hav]

/-- The slot with the flag clear does nothing. -/
theorem reconnectToAvahi_of_not_flag (av : Avahi) (s : ZeroconfRegisterAvahi)
    (h : s.needsReconnect_ = false) : reconnectToAvahi av s = s := by
  simp [reconnectToAvahi, h]

/-- C5: a client failure with the reason Disconnected emits nothing, calls
nothing and changes only two members: `needsReconnect_` becomes true and the
single-shot timer is armed with 1000 ms. Any number of further such failures
before the expiry leaves that same state, one armed timer. Its expiry makes one
reconnect attempt (the held client and group are freed and one client is
requested); afterwards the timer is idle and the flag clear, and neither another
expiry nor another run of the slot does anything. -/
theorem client_failure_disconnected_arms_one_reconnect (alt : String → String) (fuel : Nat)
    (av : Avahi) (avs : List Avahi) (s : ZeroconfRegisterAvahi)
    (h : av.client_errno = AVAHI_ERR_DISCONNECTED)
    (hs : ∀ a ∈ avs, a.client_errno = AVAHI_ERR_DISCONNECTED) :
    client_callback alt av fuel .FAILURE s =
      some { s with needsReconnect_ := true, reconnectTimer_ := some 1000 } ∧
    run alt fuel ((av :: avs).map (fun a => (a, Input.client_callback .FAILURE))) s =
      some { s with needsReconnect_ := true, reconnectTimer_ := some 1000 } ∧
    ∀ av1 av2 : Avahi,
      (timeout av1 { s with needsReconnect_ := true, reconnectTimer_ := some 1000 }).calls =
        s.calls ++ (s.client_.map AvahiCall.client_free).toList ++
          (s.group_.map AvahiCall.entry_group_free).toList ++
          [.client_new s.threaded_poll_ av1.client_new.toOption] ∧
      (timeout av1 { s with needsReconnect_ := true, reconnectTimer_ := some 1000 }).reconnectTimer_
        = none ∧
      (timeout av1 { s with needsReconnect_ := true, reconnectTimer_ := some 1000 }).needsReconnect_
        = false ∧
      timeout av2 (timeout av1 { s with needsReconnect_ := true, reconnectTimer_ := some 1000 }) =
        timeout av1 { s with needsReconnect_ := true, reconnectTimer_ := some 1000 } ∧
      reconnectToAvahi av2
          (timeout av1 { s with needsReconnect_ := true, reconnectTimer_ := some 1000 }) =
        timeout av1 { s with needsReconnect_ := true, reconnectTimer_ := some 1000 } := by
  refine ⟨client_callback_disconnected alt fuel av s h, ?_, ?_⟩
  · rw [List.map_cons, run]
    simp only [step]
    rw [client_callback_disconnected alt fuel av s h]
    exact run_disconnected alt fuel avs s hs
  · intro av1 av2
    have ht : timeout av1 { s with needsReconnect_ := true, reconnectTimer_ := some 1000 } =
        reconnectToAvahi av1 { s with needsReconnect_ := true, reconnectTimer_ := none } := rfl
    obtain ⟨h1, _, _, h4, _⟩ :=
      reconnectToAvahi_of_flag av1 { s with needsReconnect_ := true, reconnectTimer_ := none } rfl
    obtain ⟨_, _, _, _, h5, _⟩ :=
      reconnectToAvahi_frame av1 { s with needsReconnect_ := true, reconnectTimer_ := none }
    rw [ht]
    refine ⟨h4, h5, h1, ?_, reconnectToAvahi_of_not_flag av2 _ h1⟩
    unfold timeout
    rw [h5]

/-- C5 on the registrar `active`: three Disconnected failures in a row arm the
timer once. -/
theorem client_failure_disconnected_active :
    run id 1 ((Sample.disconnected :: [Sample.disconnected, Sample.disconnected]).map
        (fun a => (a, Input.client_callback .FAILURE))) Sample.active =
      some { Sample.active with needsReconnect_ := true, reconnectTimer_ := some 1000 } :=
  (client_failure_disconnected_arms_one_reconnect id 1 Sample.disconnected
    [Sample.disconnected, Sample.disconnected] Sample.active rfl (by decide)).2.1

/-- C6: a client failure with a reason `c` other than Disconnected emits the one
signal `error(c)` and changes nothing else: no operation is called, the flag, the
timer, the handles, the records and the port are as before. -/
theorem client_failure_other_emits_error (alt : String → String) (fuel : Nat) (av : Avahi)
    (s : ZeroconfRegisterAvahi) (h : av.client_errno ≠ AVAHI_ERR_DISCONNECTED) :
    client_callback alt av fuel .FAILURE s =
      some { s with signals := s.signals ++ [.error av.client_errno] } := by
  simp [client_callback, h, emit]

/-- C6 on the registrar `active` with the reason `AVAHI_ERR_NO_MEMORY`. -/
theorem client_failure_other_active :
    client_callback id Sample.outOfMemory 1 .FAILURE Sample.active =
      some { Sample.active with signals := Sample.active.signals ++ [.error AVAHI_ERR_NO_MEMORY] } :=
  client_failure_other_emits_error id 1 Sample.outOfMemory Sample.active (by decide)

/-! ### Reconnecting -/

/-- C7: a new registrar registers `r`, the client reports Running and the group
Established (one `serviceRegistered(r)`); the client then fails with Disconnected,
the timer expires and a new client is obtained, that client reports Running (a
group is created, it is empty, the add and the commit succeed) and the group
reports Established. Then the signals are `serviceRegistered(r)` twice and no
error, the old client and group are freed by the reconnect, and the Running
callback that follows creates the group `g2` on the new client: it is the group
held at the end. -/
theorem reconnect_registers_again (alt : String → String) (r : ZeroconfRecord) (p fuel : Nat)
    (av0 av1 av2 av3 av4 av5 av6 : Avahi) (poll c g c2 g2 : Handle)
    (hpoll : av0.threaded_poll_new = some poll) (hclient : av0.client_new = .ok c)
    (hstart : 0 ≤ av0.threaded_poll_start)
    (hgroup : av1.entry_group_new = some g) (hempty : av1.entry_group_is_empty 0 = true)
    (hadd : 0 ≤ av1.entry_group_add_service 0) (hcommit : 0 ≤ av1.entry_group_commit)
    (hdisc : av3.client_errno = AVAHI_ERR_DISCONNECTED)
    (hclient2 : av4.client_new = .ok c2)
    (hgroup2 : av5.entry_group_new = some g2) (hempty2 : av5.entry_group_is_empty 0 = true)
    (hadd2 : 0 ≤ av5.entry_group_add_service 0) (hcommit2 : 0 ≤ av5.entry_group_commit) :
    ∃ s, run alt (fuel + 1) [(av0, .registerService r p), (av1, .client_callback .S_RUNNING),
        (av2, .entry_group_callback .ESTABLISHED), (av3, .client_callback .FAILURE),
        (av4, .timeout), (av5, .client_callback .S_RUNNING),
        (av6, .entry_group_callback .ESTABLISHED)] new = some s ∧
      s.signals = [.serviceRegistered r, .serviceRegistered r] ∧
      s.calls.drop 6 = [.client_free c, .entry_group_free g,
        .client_new (some poll) (some c2), .entry_group_new (some c2) (some g2),
        .entry_group_add_service g2 (constData r.serviceName) (constData r.registeredType)
          (if r.replyDomain.isEmpty then none else some (constData r.replyDomain)) p
          (av5.entry_group_add_service 0),
        .entry_group_commit g2 av5.entry_group_commit] ∧
      s.client_ = some c2 ∧ s.group_ = some g2 ∧ registeredRecord s = r := by
  have h1 := not_lt.mpr hstart
  have h2 := not_lt.mpr hadd
  have h3 := not_lt.mpr hcommit
  have h4 := not_lt.mpr hadd2
  have h5 := not_lt.mpr hcommit2
  simp [run, step, registerService, new, call, emit, client_callback, create_services,
    entry_group_callback, timeout, reconnectToAvahi, registeredRecord, hpoll, hclient, hgroup,
    hempty, hdisc, hclient2, hgroup2, hempty2, h1, h2, h3, h4, h5]

/-- C7 at `workstation`: the daemon restarts and hands out client 4 and group 5. -/
theorem reconnect_registers_again_workstation :
    ∃ s, run id 1 [(Sample.daemon, .registerService Sample.workstation 24800),
        (Sample.daemon, .client_callback .S_RUNNING),
        (Sample.daemon, .entry_group_callback .ESTABLISHED),
        (Sample.disconnected, .client_callback .FAILURE),
        (Sample.restarted, .timeout), (Sample.restarted, .client_callback .S_RUNNING),
        (Sample.restarted, .entry_group_callback .ESTABLISHED)] new = some s ∧
      s.signals = [.serviceRegistered Sample.workstation,
        .serviceRegistered Sample.workstation] ∧
      s.calls.drop 6 = [.client_free 2, .entry_group_free 3,
        .client_new (some 1) (some 4), .entry_group_new (some 4) (some 5),
        .entry_group_add_service 5 "Workstation" "_input._tcp" none 24800 0,
        .entry_group_commit 5 0] ∧
      s.client_ = some 4 ∧ s.group_ = some 5 ∧ registeredRecord s = Sample.workstation :=
  reconnect_registers_again id Sample.workstation 24800 0 Sample.daemon Sample.daemon
    Sample.daemon Sample.disconnected Sample.restarted Sample.restarted Sample.restarted
    1 2 3 4 5 rfl rfl (by decide) rfl rfl (by decide) (by decide) rfl rfl rfl rfl
    (by decide) (by decide)

/-- C8: with `needsReconnect_` clear the slot `reconnectToAvahi` returns the
registrar as it was (no operation, no signal, no change). With the flag set it
clears the flag, frees the held client and then the held group, keeps
`threaded_poll_` (the poll is neither stopped nor freed) and requests one client
on it; the group handle is null afterwards, the client handle is the new client or
null; a failed request emits the one signal `error(e)` with the code of Avahi, a
successful one emits nothing. Records, port and timer are untouched. -/
theorem reconnectToAvahi_acts_on_flag (av : Avahi) (s : ZeroconfRegisterAvahi) :
    (s.needsReconnect_ = false → reconnectToAvahi av s = s) ∧
    (s.needsReconnect_ = true →
      (reconnectToAvahi av s).needsReconnect_ = false ∧
      (reconnectToAvahi av s).group_ = none ∧
      (reconnectToAvahi av s).threaded_poll_ = s.threaded_poll_ ∧
      (reconnectToAvahi av s).calls =
        s.calls ++ (s.client_.map AvahiCall.client_free).toList ++
          (s.group_.map AvahiCall.entry_group_free).toList ++
          [.client_new s.threaded_poll_ av.client_new.toOption] ∧
      (∀ e, av.client_new = .error e →
        (reconnectToAvahi av s).signals = s.signals ++ [.error e] ∧
        (reconnectToAvahi av s).client_ = none) ∧
      (∀ c, av.client_new = .ok c →
        (reconnectToAvahi av s).signals = s.signals ∧
        (reconnectToAvahi av s).client_ = some c) ∧
      (reconnectToAvahi av s).pendingRecord = s.pendingRecord ∧
      (reconnectToAvahi av s).finalRecord = s.finalRecord ∧
      (reconnectToAvahi av s).servicePort_ = s.servicePort_ ∧
      (reconnectToAvahi av s).reconnectTimer_ = s.reconnectTimer_) := by
  refine ⟨reconnectToAvahi_of_not_flag av s, ?_⟩
  intro h
  obtain ⟨h1, h2, h3, h4, h5⟩ := reconnectToAvahi_of_flag av s h
  obtain ⟨f1, f2, f3, f4, f5, _⟩ := reconnectToAvahi_frame av s
  refine ⟨h1, h2, f4, h4, ?_, ?_, f1, f2, f3, f5⟩
  · intro e he
    rw [h5, h3, he]
    exact ⟨rfl, rfl⟩
  · intro c hc
    rw [h5, h3, hc]
    exact ⟨by simp, rfl⟩

/-- C8 on the registrar `active` with the flag set: a daemon without memory makes
the reconnect fail with one error and no client; the poll is still held. -/
theorem reconnectToAvahi_active_exhausted :
    (reconnectToAvahi Sample.exhausted { Sample.active with needsReconnect_ := true }).calls =
        [.client_free 2, .entry_group_free 3, .client_new (some 1) none] ∧
    (reconnectToAvahi Sample.exhausted { Sample.active with needsReconnect_ := true }).signals =
        [.error AVAHI_ERR_NO_MEMORY] ∧
    (reconnectToAvahi Sample.exhausted { Sample.active with needsReconnect_ := true }).client_ =
        none :=
  have h := (reconnectToAvahi_acts_on_flag Sample.exhausted
    { Sample.active with needsReconnect_ := true }).2 rfl
  ⟨h.2.2.2.1, (h.2.2.2.2.1 AVAHI_ERR_NO_MEMORY rfl).1, (h.2.2.2.2.1 AVAHI_ERR_NO_MEMORY rfl).2⟩

/-! ### reset -/

/-- After `reset()` the three handles are null. -/
theorem reset_handles (s : ZeroconfRegisterAvahi) :
    (reset s).client_ = none ∧ (reset s).group_ = none ∧ (reset s).threaded_poll_ = none := by
  obtain ⟨c, g, p, _, _, _, _, _, _, _⟩ := s
  cases c <;> cases g <;> cases p <;> exact ⟨rfl, rfl, rfl⟩

/-- With no handle held `reset()` does nothing. -/
theorem reset_of_no_handles (s : ZeroconfRegisterAvahi) (hc : s.client_ = none)
    (hg : s.group_ = none) (hp : s.threaded_poll_ = none) : reset s = s := by
  obtain ⟨c, g, p, _, _, _, _, _, _, _⟩ := s
  simp only at hc hg hp
  subst hc hg hp
  rfl

/-- C10: whatever handles are held, after `reset()` none is held, and a second
`reset()` returns the registrar exactly as the first one left it, the history of
operations included: it calls nothing. -/
theorem reset_twice (s : ZeroconfRegisterAvahi) :
    (reset s).client_ = none ∧ (reset s).group_ = none ∧ (reset s).threaded_poll_ = none ∧
    reset (reset s) = reset s ∧ (reset (reset s)).calls = (reset s).calls := by
  obtain ⟨h1, h2, h3⟩ := reset_handles s
  have h4 := reset_of_no_handles (reset s) h1 h2 h3
  exact ⟨h1, h2, h3, h4, by rw [h4]⟩

/-! ### registerService that fails -/

/-- C11: on a registrar that holds no handle, a `registerService` that cannot
create the threaded poll emits the one signal `error(AVAHI_ERR_NO_MEMORY)`, one
that gets the poll but no client emits the one signal `error(e)` with the code of
`avahi_client_new`, and one that cannot start the poll loop emits the one signal
`error(AVAHI_ERR_FAILURE)`; in each case no poll, client or group is held
afterwards. -/
theorem registerService_failure_leaves_reset (av : Avahi) (r : ZeroconfRecord) (p : Nat)
    (s : ZeroconfRegisterAvahi) (hc : s.client_ = none) (hg : s.group_ = none)
    (hp : s.threaded_poll_ = none) :
    (av.threaded_poll_new = none →
      (registerService av r p s).signals = s.signals ++ [.error AVAHI_ERR_NO_MEMORY]) ∧
    (∀ poll e, av.threaded_poll_new = some poll → av.client_new = .error e →
      (registerService av r p s).signals = s.signals ++ [.error e]) ∧
    (∀ poll c, av.threaded_poll_new = some poll → av.client_new = .ok c →
      av.threaded_poll_start < 0 →
      (registerService av r p s).signals = s.signals ++ [.error AVAHI_ERR_FAILURE]) ∧
    ((av.threaded_poll_new = none ∨ (∃ e, av.client_new = .error e) ∨
        av.threaded_poll_start < 0) →
      (registerService av r p s).threaded_poll_ = none ∧
      (registerService av r p s).client_ = none ∧
      (registerService av r p s).group_ = none) := by
  obtain ⟨c0, g0, p0, _, _, _, _, _, _, _⟩ := s
  simp only at hc hg hp
  subst hc hg hp
  refine ⟨?_, ?_, ?_, ?_⟩
  · intro h
    simp [registerService, h, emit, call]
  · intro poll e h1 h2
    simp [registerService, h1, h2, emit, call, reset]
  · intro poll c h1 h2 h3
    simp [registerService, h1, h2, h3, emit, call, reset]
  · intro h
    cases h1 : av.threaded_poll_new with
    | none => simp [registerService, h1, emit, call]
    | some poll =>
      cases h2 : av.client_new with
      | error e => simp [registerService, h1, h2, emit, call, reset]
      | ok c =>
        have h3 : av.threaded_poll_start < 0 := by
          rcases h with h | ⟨e, h⟩ | h
          · rw [h1] at h; cases h
          · rw [h2] at h; cases h
          · exact h
        simp [registerService, h1, h2, h3, emit, call, reset]

/-- C11 on a new registrar and a daemon without memory for a client: one error,
no handle. -/
theorem registerService_failure_exhausted :
    (registerService Sample.exhausted Sample.workstation 24800 new).signals =
        new.signals ++ [.error AVAHI_ERR_NO_MEMORY] ∧
    (registerService Sample.exhausted Sample.workstation 24800 new).threaded_poll_ = none ∧
    (registerService Sample.exhausted Sample.workstation 24800 new).client_ = none ∧
    (registerService Sample.exhausted Sample.workstation 24800 new).group_ = none :=
  have h := registerService_failure_leaves_reset Sample.exhausted Sample.workstation 24800 new
    rfl rfl rfl
  ⟨h.2.1 1 AVAHI_ERR_NO_MEMORY rfl rfl, h.2.2.2 (Or.inr (Or.inl ⟨_, rfl⟩))⟩

/-! ### Adding and committing -/

/-- C12 as stated fails: on the registrar `active`, whose group is reported empty,
an add that fails with `AVAHI_ERR_FAILURE`, which is no collision, is followed by
no commit, and the error emitted is the one of the add. -/
theorem add_failure_without_commit :
    Sample.addFails.entry_group_is_empty 0 = true ∧
    Sample.addFails.entry_group_add_service 0 ≠ AVAHI_ERR_COLLISION ∧
    (create_services id Sample.addFails 1 0 Sample.active).map (fun s => (s.signals, s.calls))
      = some ([.error AVAHI_ERR_FAILURE],
          [.entry_group_add_service 3 "Workstation" "_input._tcp" none 24800
            AVAHI_ERR_FAILURE]) := by
  decide

/-- C12, amended: in an attempt of `create_services` on a held group that is
reported empty, an add that succeeds is followed by the commit of the group and by
nothing else, and the only error then emitted is the code of a failed commit; an
add that fails with a code other than the collision is followed by no commit and
by the one signal `error` with the code of the add. -/
theorem add_then_commit (alt : String → String) (av : Avahi) (fuel n : Nat)
    (s : ZeroconfRegisterAvahi) (g : Handle) (hg : s.group_ = some g)
    (he : av.entry_group_is_empty n = true) :
    (0 ≤ av.entry_group_add_service n →
      ∃ s', create_services alt av (fuel + 1) n s = some s' ∧
        s'.calls = s.calls ++
          [addCall av n g s, .entry_group_commit g av.entry_group_commit] ∧
        s'.signals = s.signals ++
          (if av.entry_group_commit < 0 then [.error av.entry_group_commit] else [])) ∧
    (av.entry_group_add_service n < 0 → av.entry_group_add_service n ≠ AVAHI_ERR_COLLISION →
      ∃ s', create_services alt av (fuel + 1) n s = some s' ∧
        s'.calls = s.calls ++ [addCall av n g s] ∧
        s'.signals = s.signals ++ [.error (av.entry_group_add_service n)]) := by
  constructor
  · intro ha
    rw [create_services_committed alt av fuel n s g hg he ha]
    by_cases hc : av.entry_group_commit < 0
    · simp only [hc, if_true]
      exact ⟨_, rfl, by simp [call, emit], rfl⟩
    · simp only [hc, if_false]
      exact ⟨_, rfl, by simp [call], by simp [call]⟩
  · intro ha hc
    rw [create_services_add_failed alt av fuel n s g hg he ha hc]
    exact ⟨_, rfl, rfl, rfl⟩

/-- C12, amended, on the registrar `active` with a daemon on which everything
succeeds: the add is followed by the commit and no signal. -/
theorem add_then_commit_active :
    ∃ s', create_services id Sample.daemon 1 0 Sample.active = some s' ∧
      s'.calls = Sample.active.calls ++
        [addCall Sample.daemon 0 3 Sample.active, .entry_group_commit 3 0] ∧
      s'.signals = Sample.active.signals ++ [] :=
  (add_then_commit id Sample.daemon 0 0 Sample.active 3 rfl rfl).1 (by decide)

/-! ### Group failures -/

/-- C14: the group callback for the state Failure returns the registrar with the
one signal `error` with the current error code of the client appended and nothing
else changed; and an attempt of `create_services` on a held, empty group whose add
succeeds and whose commit fails returns the registrar with the add and the commit
recorded, the one signal `error` with the code of the commit appended, and
nothing else changed: no further operation on the group, the same records, port,
handles, timer and flag. When that attempt had to create the group first, the
creation is recorded and the new group is held; the failed commit changes nothing
more. -/
theorem group_failure_passes_error (alt : String → String) (av : Avahi) (fuel n : Nat)
    (s : ZeroconfRegisterAvahi) :
    entry_group_callback alt av fuel .FAILURE s =
      some { s with signals := s.signals ++ [.error av.client_errno] } ∧
    (∀ g, s.group_ = some g → av.entry_group_is_empty n = true →
      0 ≤ av.entry_group_add_service n → av.entry_group_commit < 0 →
      create_services alt av (fuel + 1) n s =
        some { s with
          signals := s.signals ++ [.error av.entry_group_commit]
          calls := s.calls ++
            [addCall av n g s, .entry_group_commit g av.entry_group_commit] }) ∧
    (∀ g, s.group_ = none → av.entry_group_new = some g →
      av.entry_group_is_empty n = true →
      0 ≤ av.entry_group_add_service n → av.entry_group_commit < 0 →
      create_services alt av (fuel + 1) n s =
        some { s with
          group_ := some g
          signals := s.signals ++ [.error av.entry_group_commit]
          calls := s.calls ++
            [.entry_group_new s.client_ (some g), addCall av n g s,
             .entry_group_commit g av.entry_group_commit] }) := by
  refine ⟨rfl, ?_, ?_⟩
  · intro g hg he ha hc
    rw [create_services_committed alt av fuel n s g hg he ha]
    simp [hc, emit, call]
  · intro g hg hn he ha hc
    rw [create_services_group_created alt av fuel n s g hg hn,
      create_services_committed alt av fuel n _ g rfl he ha]
    simp [hc, emit, call, addCall]

/-- C14 on the registrar `active` with a daemon on which the commit fails. -/
theorem group_failure_commit_active :
    create_services id Sample.commitFails 1 0 Sample.active =
      some { Sample.active with
        signals := Sample.active.signals ++ [.error Sample.commitFails.entry_group_commit]
        calls := Sample.active.calls ++
          [addCall Sample.commitFails 0 3 Sample.active,
           .entry_group_commit 3 Sample.commitFails.entry_group_commit] } :=
  (group_failure_passes_error id Sample.commitFails 0 0 Sample.active).2.1 3 rfl rfl
    (by decide) (by decide)

/-! ### The final record -/

/-- C17: `finalRecord`, the value of `registeredRecord()`, is written only by the
group callback for the state Established, which sets it to the pending record.
`registerService`, `reset()`, the slot `reconnectToAvahi`, an expiry of the timer,
every client callback, `create_services` with its renames, and the group callback
for every other state return a registrar with the same `finalRecord`. -/
theorem finalRecord_written_on_established (alt : String → String) (av : Avahi) (fuel n : Nat)
    (s : ZeroconfRegisterAvahi) :
    (∀ r p, registeredRecord (registerService av r p s) = registeredRecord s) ∧
    registeredRecord (reset s) = registeredRecord s ∧
    registeredRecord (reconnectToAvahi av s) = registeredRecord s ∧
    registeredRecord (timeout av s) = registeredRecord s ∧
    (∀ state s', client_callback alt av fuel state s = some s' →
      registeredRecord s' = registeredRecord s) ∧
    (∀ s', create_services alt av fuel n s = some s' →
      registeredRecord s' = registeredRecord s) ∧
    (∀ state s', state ≠ .ESTABLISHED → entry_group_callback alt av fuel state s = some s' →
      registeredRecord s' = registeredRecord s) ∧
    (∀ s', entry_group_callback alt av fuel .ESTABLISHED s = some s' →
      registeredRecord s' = s.pendingRecord) := by
  refine ⟨?_, ?_, ?_, ?_, ?_, ?_, ?_, ?_⟩
  · intro r p
    exact (registerService_frame av r p s).2.2.1
  · exact (reset_frame s).2.1
  · exact (reconnectToAvahi_frame av s).2.1
  · unfold timeout
    cases s.reconnectTimer_ with
    | none => rfl
    | some ms => exact (reconnectToAvahi_frame av _).2.1
  · intro state s' h
    cases state with
    | S_RUNNING => exact (create_services_frame alt av fuel 0 s s' h).2.2.1
    | FAILURE =>
      unfold client_callback at h
      by_cases he : av.client_errno = AVAHI_ERR_DISCONNECTED
      · simp only [he, if_true] at h
        injection h with h; subst h; rfl
      · simp only [he, if_false] at h
        injection h with h; subst h; rfl
    | S_COLLISION =>
      unfold client_callback at h
      cases hg : s.group_ <;> simp only [hg] at h <;> injection h with h <;> subst h <;> rfl
    | S_REGISTERING =>
      unfold client_callback at h
      cases hg : s.group_ <;> simp only [hg] at h <;> injection h with h <;> subst h <;> rfl
    | CONNECTING => injection h with h; subst h; rfl
  · intro s' h
    exact (create_services_frame alt av fuel n s s' h).2.2.1
  · intro state s' hne h
    cases state with
    | ESTABLISHED => exact absurd rfl hne
    | COLLISION => exact (create_services_frame alt av fuel 0 _ s' h).2.2.1
    | FAILURE => injection h with h; subst h; rfl
    | UNCOMMITED => injection h with h; subst h; rfl
    | REGISTERING => injection h with h; subst h; rfl
  · intro s' h
    injection h with h; subst h; rfl

/-- C17 on the registrar `active`: a remote collision with a local one in the
retry renames the pending record twice and leaves the final record as it was. -/
theorem finalRecord_kept_over_collisions :
    ∃ s', entry_group_callback Sample.appendMark Sample.collidingOnce 2 .COLLISION
        Sample.active = some s' ∧
      registeredRecord s' = registeredRecord Sample.active :=
  ⟨_, rfl, (finalRecord_written_on_established Sample.appendMark Sample.collidingOnce 2 0
    Sample.active).2.2.2.2.2.2.1 .COLLISION _ (by decide) rfl⟩

/-! ### The operations of reset -/

/-- C19: the operations `reset()` performs are, in this order, the free of the
group if one is held, the free of the client if one is held, and the stop and then
the free of the threaded poll if one is held; nothing else is called and nothing
is freed twice. -/
theorem reset_operations (s : ZeroconfRegisterAvahi) :
    (reset s).calls = s.calls ++
      (s.group_.map AvahiCall.entry_group_free).toList ++
      (s.client_.map AvahiCall.client_free).toList ++
      (match s.threaded_poll_ with
       | some p => [AvahiCall.threaded_poll_stop p, AvahiCall.threaded_poll_free p]
       | none => []) := by
  obtain ⟨c, g, p, _, _, _, _, _, _, _⟩ := s
  cases c <;> cases g <;> cases p <;> simp [reset, call]

/-! ### The entry added to the group -/

/-- What an add operation of an attempt puts into the group. -/
theorem addedEntry_addCall (av : Avahi) (n : Nat) (g : Handle) (s : ZeroconfRegisterAvahi) :
    addedEntry (addCall av n g s) =
      if 0 ≤ av.entry_group_add_service n then some (serviceEntry s) else none := rfl

/-- With a group held: the entries added by `create_services` and the arguments
of its add operations. -/
theorem create_services_loop_adds (alt : String → String) (av : Avahi) (g : Handle) :
    ∀ (fuel n : Nat) (s s' : ZeroconfRegisterAvahi), s.group_ = some g →
      create_services alt av fuel n s = some s' →
      ∃ added, s'.calls = s.calls ++ added ∧
        (added.filterMap addedEntry = [] ∨ added.filterMap addedEntry = [serviceEntry s']) ∧
        (∀ c ∈ added, c.isAdd = true → ∃ j, c = .entry_group_add_service g
          (constData (alt^[j] s.pendingRecord.serviceName))
          (constData s.pendingRecord.registeredType)
          (if s.pendingRecord.replyDomain.isEmpty then none
           else some (constData s.pendingRecord.replyDomain))
          s.servicePort_ (av.entry_group_add_service (n + j))) ∧
        (av.entry_group_is_empty n = false → added = []) := by
  intro fuel
  induction fuel with
  | zero => intro n s s' _ h; simp [create_services] at h
  | succ fuel ih =>
    intro n s s' hg h
    by_cases he : av.entry_group_is_empty n = true
    · by_cases hc : av.entry_group_add_service n = AVAHI_ERR_COLLISION
      · rw [create_services_collision alt av fuel n s g hg he hc] at h
        obtain ⟨added, h1, h2, h3, _⟩ := ih _ _ _ (by exact hg) h
        have hneg : ¬ (0 ≤ av.entry_group_add_service n) := by rw [hc]; decide
        refine ⟨[addCall av n g s, .entry_group_reset g] ++ added, ?_, ?_, ?_, ?_⟩
        · rw [h1]; simp [call]
        · have : ([addCall av n g s, AvahiCall.entry_group_reset g] ++ added).filterMap addedEntry
              = added.filterMap addedEntry := by
            rw [List.filterMap_append]
            simp only [List.filterMap_cons, addedEntry_addCall, hneg, if_false]
            simp [addedEntry]
          rw [this]; exact h2
        · intro c hc' hadd
          simp only [List.cons_append, List.nil_append, List.mem_cons] at hc'
          rcases hc' with hc' | hc' | hc'
          · exact ⟨0, by rw [hc']; rfl⟩
          · rw [hc'] at hadd; simp [AvahiCall.isAdd] at hadd
          · obtain ⟨j, hj⟩ := h3 c hc' hadd
            refine ⟨j + 1, ?_⟩
            rw [hj, show n + 1 + j = n + (j + 1) by omega]
            rfl
        · intro hf; rw [he] at hf; cases hf
      · by_cases ha : av.entry_group_add_service n < 0
        · rw [create_services_add_failed alt av fuel n s g hg he ha hc] at h
          injection h with h; subst h
          refine ⟨[addCall av n g s], rfl, Or.inl ?_, ?_, ?_⟩
          · simp only [List.filterMap_cons, addedEntry_addCall, not_le.mpr ha, if_false]
            rfl
          · intro c hc' _
            simp only [List.mem_singleton] at hc'
            exact ⟨0, by rw [hc']; rfl⟩
          · intro hf; rw [he] at hf; cases hf
        · rw [create_services_committed alt av fuel n s g hg he (not_lt.mp ha)] at h
          injection h with h; subst h
          refine ⟨[addCall av n g s, .entry_group_commit g av.entry_group_commit], ?_, Or.inr ?_,
            ?_, ?_⟩
          · by_cases hcm : av.entry_group_commit < 0 <;> simp [hcm, call, emit]
          · simp only [List.filterMap_cons, addedEntry_addCall, not_lt.mp ha, if_true]
            by_cases hcm : av.entry_group_commit < 0 <;>
              simp [hcm, addedEntry, serviceEntry, call, emit]
          · intro c hc' hadd
            simp only [List.mem_cons, List.mem_singleton, List.not_mem_nil, or_false] at hc'
            rcases hc' with hc' | hc'
            · exact ⟨0, by rw [hc']; rfl⟩
            · rw [hc'] at hadd; simp [AvahiCall.isAdd] at hadd
          · intro hf; rw [he] at hf; cases hf
    · rw [create_services_not_empty alt av fuel n s g hg (by simpa using he)] at h
      injection h with h; subst h
      exact ⟨[], by simp, Or.inl rfl, by simp, fun _ => rfl⟩

/-- C13 as stated fails for a record with the character U+0000: registered with
the name "a", U+0000, "b" and a domain that starts with U+0000, the registrar adds
on Running the entry with the name "a" and the empty domain, which are neither the
pending name nor `replyDomain`, although `replyDomain` is not empty. -/
theorem add_service_entry_cut_at_nul :
    ∃ s, run id 1 [(Sample.daemon, .registerService Sample.nulRecord 24800),
        (Sample.daemon, .client_callback .S_RUNNING)] new = some s ∧
      s.calls.filterMap addedEntry = [("a", "_input._tcp", some "", 24800)] ∧
      s.pendingRecord.serviceName ≠ "a" ∧
      s.pendingRecord.replyDomain.isEmpty = false ∧
      s.pendingRecord.replyDomain ≠ "" :=
  ⟨_, rfl, by decide⟩

/-- A string without the character U+0000 is its own C string. -/
theorem constData_of_no_nul (x : String) (h : Char.ofNat 0 ∉ x.data) : constData x = x := by
  have : x.data.takeWhile (fun ch => ch != Char.ofNat 0) = x.data := by
    rw [List.takeWhile_eq_self_iff]
    intro ch hch
    simp only [bne_iff_ne, ne_eq]
    intro heq
    exact h (heq ▸ hch)
  unfold constData
  rw [this]

/-- C13, amended: of the operations one call of `create_services` performs, the
successful adds put either nothing or exactly one entry into the group, and that
entry is built from the pending record and the port: the C strings of its name
and of its type, no domain when `replyDomain` is empty and the C string of
`replyDomain` otherwise, and `servicePort_`. A C string is the string up to its
first U+0000, and the whole string when it has none. Every add operation of the
call, a collided one as well, goes to the group held, with the type, the domain
and the port of the registrar and with the pending name of its attempt. When the
group is reported non-empty, nothing is added and nothing is committed. -/
theorem add_service_entry (alt : String → String) (av : Avahi) (fuel n : Nat)
    (s s' : ZeroconfRegisterAvahi) (h : create_services alt av fuel n s = some s') :
    ((s'.calls.drop s.calls.length).filterMap addedEntry = [] ∨
      (s'.calls.drop s.calls.length).filterMap addedEntry =
        [(constData s'.pendingRecord.serviceName, constData s'.pendingRecord.registeredType,
          if s'.pendingRecord.replyDomain.isEmpty then none
          else some (constData s'.pendingRecord.replyDomain),
          s'.servicePort_)]) ∧
    (∀ x : String, Char.ofNat 0 ∉ x.data → constData x = x) ∧
    (∀ c ∈ s'.calls.drop s.calls.length, c.isAdd = true →
      ∃ g j, s'.group_ = some g ∧ c = .entry_group_add_service g
        (constData (alt^[j] s.pendingRecord.serviceName))
        (constData s.pendingRecord.registeredType)
        (if s.pendingRecord.replyDomain.isEmpty then none
         else some (constData s.pendingRecord.replyDomain))
        s.servicePort_ (av.entry_group_add_service (n + j))) ∧
    (av.entry_group_is_empty n = false →
      (s'.calls.drop s.calls.length).countP AvahiCall.isAdd = 0 ∧
      (s'.calls.drop s.calls.length).countP AvahiCall.isCommit = 0) := by
  cases fuel with
  | zero => simp [create_services] at h
  | succ fuel =>
    cases hg : s.group_ with
    | some g =>
      obtain ⟨added, h1, h2, h3, h4⟩ := create_services_loop_adds alt av g _ _ _ _ hg h
      have hg' := (create_services_loop_frame alt av _ _ _ _ g hg h).2.1
      have hd : s'.calls.drop s.calls.length = added := by rw [h1]; exact List.drop_left _ _
      rw [hd]
      refine ⟨h2, constData_of_no_nul, ?_, ?_⟩
      · intro c hc hadd
        obtain ⟨j, hj⟩ := h3 c hc hadd
        exact ⟨g, j, hg'.trans hg, hj⟩
      · intro he; rw [h4 he]; exact ⟨rfl, rfl⟩
    | none =>
      cases hn : av.entry_group_new with
      | none =>
        rw [create_services_group_failed alt av fuel n s hg hn] at h
        injection h with h; subst h
        have hd : (emit (Signal.error av.client_errno)
            (call (AvahiCall.entry_group_new s.client_ none) s)).calls.drop s.calls.length
            = [AvahiCall.entry_group_new s.client_ none] := List.drop_left _ _
        rw [hd]
        refine ⟨Or.inl rfl, constData_of_no_nul, ?_, fun _ => ⟨rfl, rfl⟩⟩
        intro c hc hadd
        simp only [List.mem_singleton] at hc
        rw [hc] at hadd; simp [AvahiCall.isAdd] at hadd
      | some g =>
        rw [create_services_group_created alt av fuel n s g hg hn] at h
        obtain ⟨added, h1, h2, h3, h4⟩ := create_services_loop_adds alt av g _ _ _ _ rfl h
        have hg' := (create_services_loop_frame alt av _ _ _ _ g rfl h).2.1
        have hd : s'.calls.drop s.calls.length =
            AvahiCall.entry_group_new s.client_ (some g) :: added := by
          rw [h1]
          show (s.calls ++ [AvahiCall.entry_group_new s.client_ (some g)] ++ added).drop _ = _
          rw [List.append_assoc]; exact List.drop_left _ _
        rw [hd]
        refine ⟨?_, constData_of_no_nul, ?_, ?_⟩
        · simpa only [List.filterMap_cons, addedEntry] using h2
        · intro c hc hadd
          simp only [List.mem_cons] at hc
          rcases hc with hc | hc
          · rw [hc] at hadd; simp [AvahiCall.isAdd] at hadd
          · obtain ⟨j, hj⟩ := h3 c hc hadd
            exact ⟨g, j, hg', hj⟩
        · intro he; rw [h4 he]; exact ⟨rfl, rfl⟩

/-- C13, amended, on the registrar `active`, whose `replyDomain` is empty, with
one local collision: the one entry added has the renamed name and no domain. -/
theorem add_service_entry_active :
    ∃ s', create_services Sample.appendMark Sample.collidingOnce 2 0 Sample.active = some s' ∧
      (s'.calls.drop Sample.active.calls.length).filterMap addedEntry =
        [("Workstation#", "_input._tcp", none, 24800)] :=
  ⟨_, rfl, ((add_service_entry Sample.appendMark Sample.collidingOnce 2 0 Sample.active _
    rfl).1).resolve_left (by decide)⟩

/-! ### Live clients and groups -/

/-- Following the clients through two histories in a row. -/
theorem followClients_append (a b : List AvahiCall) :
    ∀ live, followClients live (a ++ b) =
      (followClients live a).bind (fun l => followClients l b) := by
  induction a with
  | nil => intro live; rfl
  | cons c a ih =>
    intro live
    cases c with
    | client_new poll ret =>
      cases ret with
      | none => simpa [followClients] using ih live
      | some c =>
        cases live with
        | none => simpa [followClients] using ih (some c)
        | some l => simp [followClients]
    | client_free c =>
      by_cases h : live = some c
      · simpa [followClients, h] using ih none
      · simp [followClients, h]
    | _ => simpa [followClients] using ih live

/-- Following the groups through two histories in a row. -/
theorem followGroups_append (a b : List AvahiCall) :
    ∀ live, followGroups live (a ++ b) =
      (followGroups live a).bind (fun l => followGroups l b) := by
  induction a with
  | nil => intro live; rfl
  | cons c a ih =>
    intro live
    cases c with
    | entry_group_new client ret =>
      cases ret with
      | none => simpa [followGroups] using ih live
      | some g =>
        cases live with
        | none => simpa [followGroups] using ih (some g)
        | some l => simp [followGroups]
    | entry_group_free g =>
      by_cases h : live = some g
      · simpa [followGroups, h] using ih none
      · simp [followGroups, h]
    | _ => simpa [followGroups] using ih live

/-- Adds, resets and commits create and free no client. -/
theorem followClients_usesGroup (added : List AvahiCall) :
    (∀ c ∈ added, c.usesGroup = true) → ∀ live, followClients live added = some live := by
  induction added with
  | nil => intro _ live; rfl
  | cons c added ih =>
    intro h live
    have hc := h c (by simp)
    have hrest := ih (fun d hd => h d (by simp [hd])) live
    cases c <;>
      first
        | simpa [followClients] using hrest
        | simp [AvahiCall.usesGroup, AvahiCall.isAdd, AvahiCall.isReset, AvahiCall.isCommit] at hc

/-- Adds, resets and commits create and free no group. -/
theorem followGroups_usesGroup (added : List AvahiCall) :
    (∀ c ∈ added, c.usesGroup = true) → ∀ live, followGroups live added = some live := by
  induction added with
  | nil => intro _ live; rfl
  | cons c added ih =>
    intro h live
    have hc := h c (by simp)
    have hrest := ih (fun d hd => h d (by simp [hd])) live
    cases c <;>
      first
        | simpa [followGroups] using hrest
        | simp [AvahiCall.usesGroup, AvahiCall.isAdd, AvahiCall.isReset, AvahiCall.isCommit] at hc

/-- A handler that keeps clients and groups in step preserves `HandlesLive`. -/
theorem handlesLive_of_keepsLive (s s' : ZeroconfRegisterAvahi) (h : HandlesLive s)
    (hk : KeepsLive s s') : HandlesLive s' := by
  obtain ⟨added, h1, h2, h3⟩ := hk
  unfold HandlesLive
  rw [h1, followClients_append, followGroups_append, h.1, h.2]
  exact ⟨h2, h3⟩

/-- A registrar that stays as it is keeps clients and groups in step. -/
theorem keepsLive_same (s : ZeroconfRegisterAvahi) : KeepsLive s s :=
  ⟨[], by simp, rfl, rfl⟩

/-- `reset()` frees what is held. -/
theorem reset_keepsLive (s : ZeroconfRegisterAvahi) : KeepsLive s (reset s) := by
  obtain ⟨c, g, p, _, _, _, _, _, _, cs⟩ := s
  cases c <;> cases g <;> cases p <;>
    first
      | exact keepsLive_same _
      | (simp only [KeepsLive, reset, call, List.append_assoc]
         refine ⟨_, rfl, ?_, ?_⟩ <;> simp [followClients, followGroups])

/-- `reconnectToAvahi()` frees the held client and group before it requests a client. -/
theorem reconnectToAvahi_keepsLive (av : Avahi) (s : ZeroconfRegisterAvahi) :
    KeepsLive s (reconnectToAvahi av s) := by
  obtain ⟨c, g, p, _, _, _, _, flag, _, cs⟩ := s
  cases flag
  · exact keepsLive_same _
  · cases c <;> cases g <;> cases hav : av.client_new <;>
      (simp only [KeepsLive, reconnectToAvahi, call, emit, hav, List.append_assoc, if_true]
       refine ⟨_, rfl, ?_, ?_⟩ <;> simp [followClients, followGroups])

/-- `registerService` requests a client only when none is held, and frees what it
holds when it gives up. -/
theorem registerService_keepsLive (av : Avahi) (r : ZeroconfRecord) (port : Nat)
    (s : ZeroconfRegisterAvahi) : KeepsLive s (registerService av r port s) := by
  obtain ⟨c, g, p, _, _, _, _, _, _, cs⟩ := s
  cases c with
  | some c => exact ⟨[], (List.append_nil _).symm, rfl, rfl⟩
  | none =>
    cases hp : av.threaded_poll_new with
    | none =>
      simp only [KeepsLive, registerService, call, emit, hp, List.append_assoc]
      refine ⟨_, rfl, ?_, ?_⟩ <;> simp [followClients, followGroups]
    | some poll =>
      cases hc : av.client_new with
      | error e =>
        cases g <;>
          (simp only [KeepsLive, registerService, reset, call, emit, hp, hc, List.append_assoc]
           refine ⟨_, rfl, ?_, ?_⟩ <;> simp [followClients, followGroups])
      | ok c =>
        by_cases hs : av.threaded_poll_start < 0
        · cases g <;>
            (simp only [KeepsLive, registerService, reset, call, emit, hp, hc, hs,
               List.append_assoc]
             refine ⟨_, rfl, ?_, ?_⟩ <;> simp [followClients, followGroups])
        · simp only [KeepsLive, registerService, call, emit, hp, hc, hs, List.append_assoc]
          refine ⟨_, rfl, ?_, ?_⟩ <;> simp [followClients, followGroups]

/-- With a group held, `create_services` only adds to, resets and commits the group. -/
theorem create_services_loop_uses_group (alt : String → String) (av : Avahi) (g : Handle) :
    ∀ (fuel n : Nat) (s s' : ZeroconfRegisterAvahi), s.group_ = some g →
      create_services alt av fuel n s = some s' →
      ∃ added, s'.calls = s.calls ++ added ∧ ∀ c ∈ added, c.usesGroup = true := by
  intro fuel
  induction fuel with
  | zero => intro n s s' _ h; simp [create_services] at h
  | succ fuel ih =>
    intro n s s' hg h
    by_cases he : av.entry_group_is_empty n = true
    · by_cases hc : av.entry_group_add_service n = AVAHI_ERR_COLLISION
      · rw [create_services_collision alt av fuel n s g hg he hc] at h
        obtain ⟨added, h1, h2⟩ := ih _ _ _ (by exact hg) h
        refine ⟨[addCall av n g s, .entry_group_reset g] ++ added, ?_, ?_⟩
        · rw [h1]; simp [call]
        · intro c hc'
          simp only [List.cons_append, List.nil_append, List.mem_cons] at hc'
          rcases hc' with hc' | hc' | hc'
          · rw [hc']; rfl
          · rw [hc']; rfl
          · exact h2 c hc'
      · by_cases ha : av.entry_group_add_service n < 0
        · rw [create_services_add_failed alt av fuel n s g hg he ha hc] at h
          injection h with h; subst h
          refine ⟨[addCall av n g s], rfl, ?_⟩
          intro c hc'
          simp only [List.mem_singleton] at hc'
          rw [hc']; rfl
        · rw [create_services_committed alt av fuel n s g hg he (not_lt.mp ha)] at h
          injection h with h; subst h
          refine ⟨[addCall av n g s, .entry_group_commit g av.entry_group_commit], ?_, ?_⟩
          · by_cases hcm : av.entry_group_commit < 0 <;> simp [hcm, call, emit]
          · intro c hc'
            simp only [List.mem_cons, List.mem_singleton, List.not_mem_nil, or_false] at hc'
            rcases hc' with hc' | hc' <;> (rw [hc']; rfl)
    · rw [create_services_not_empty alt av fuel n s g hg (by simpa using he)] at h
      injection h with h; subst h
      exact ⟨[], by simp, by simp⟩

/-- `create_services` creates a group only when none is held, and no client. -/
theorem create_services_keepsLive (alt : String → String) (av : Avahi) (fuel n : Nat)
    (s s' : ZeroconfRegisterAvahi) (h : create_services alt av fuel n s = some s') :
    KeepsLive s s' := by
  cases fuel with
  | zero => simp [create_services] at h
  | succ fuel =>
    cases hg : s.group_ with
    | some g =>
      obtain ⟨added, h1, h2⟩ := create_services_loop_uses_group alt av g _ _ _ _ hg h
      obtain ⟨f1, f2, _⟩ := create_services_loop_frame alt av _ _ _ _ g hg h
      refine ⟨added, h1, ?_, ?_⟩
      · rw [followClients_usesGroup added h2, f1]
      · rw [followGroups_usesGroup added h2, f2]
    | none =>
      cases hn : av.entry_group_new with
      | none =>
        rw [create_services_group_failed alt av fuel n s hg hn] at h
        injection h with h; subst h
        refine ⟨[.entry_group_new s.client_ none], rfl, rfl, ?_⟩
        show followGroups s.group_ _ = some s.group_
        rw [hg]; rfl
      | some g =>
        rw [create_services_group_created alt av fuel n s g hg hn] at h
        obtain ⟨added, h1, h2⟩ := create_services_loop_uses_group alt av g _ _ _ _ rfl h
        obtain ⟨f1, f2, _⟩ := create_services_loop_frame alt av _ _ _ _ g rfl h
        refine ⟨.entry_group_new s.client_ (some g) :: added, ?_, ?_, ?_⟩
        · rw [h1]; simp [call]
        · show followClients s.client_ added = _
          rw [followClients_usesGroup added h2]
          exact congrArg some f1.symm
        · rw [hg]
          show followGroups (some g) added = _
          rw [followGroups_usesGroup added h2]
          exact congrArg some f2.symm

/-- A client callback creates at most a group, and only when none is held. -/
theorem client_callback_keepsLive (alt : String → String) (av : Avahi) (fuel : Nat)
    (state : AvahiClientState) (s s' : ZeroconfRegisterAvahi)
    (h : client_callback alt av fuel state s = some s') : KeepsLive s s' := by
  cases state with
  | S_RUNNING => exact create_services_keepsLive alt av fuel 0 s s' h
  | FAILURE =>
    unfold client_callback at h
    by_cases he : av.client_errno = AVAHI_ERR_DISCONNECTED
    · simp only [he, if_true] at h
      injection h with h; subst h
      exact ⟨[], (List.append_nil _).symm, rfl, rfl⟩
    · simp only [he, if_false] at h
      injection h with h; subst h
      exact ⟨[], (List.append_nil _).symm, rfl, rfl⟩
  | S_COLLISION =>
    unfold client_callback at h
    cases hg : s.group_ <;> simp only [hg] at h <;> injection h with h <;> subst h
    · exact keepsLive_same _
    · exact ⟨[.entry_group_reset _], rfl, rfl, rfl⟩
  | S_REGISTERING =>
    unfold client_callback at h
    cases hg : s.group_ <;> simp only [hg] at h <;> injection h with h <;> subst h
    · exact keepsLive_same _
    · exact ⟨[.entry_group_reset _], rfl, rfl, rfl⟩
  | CONNECTING =>
    injection h with h; subst h
    exact keepsLive_same _

/-- A group callback creates at most a group, and only when none is held. -/
theorem entry_group_callback_keepsLive (alt : String → String) (av : Avahi) (fuel : Nat)
    (state : AvahiEntryGroupState) (s s' : ZeroconfRegisterAvahi)
    (h : entry_group_callback alt av fuel state s = some s') : KeepsLive s s' := by
  cases state with
  | ESTABLISHED =>
    injection h with h; subst h
    exact ⟨[], (List.append_nil _).symm, rfl, rfl⟩
  | COLLISION =>
    have hk := create_services_keepsLive alt av fuel 0 _ s' h
    exact hk
  | FAILURE =>
    injection h with h; subst h
    exact ⟨[], (List.append_nil _).symm, rfl, rfl⟩
  | UNCOMMITED =>
    injection h with h; subst h
    exact keepsLive_same _
  | REGISTERING =>
    injection h with h; subst h
    exact keepsLive_same _

/-- An expiry of the timer runs the slot. -/
theorem timeout_keepsLive (av : Avahi) (s : ZeroconfRegisterAvahi) :
    KeepsLive s (timeout av s) := by
  unfold timeout
  cases s.reconnectTimer_ with
  | none => exact keepsLive_same _
  | some ms => exact reconnectToAvahi_keepsLive av { s with reconnectTimer_ := none }

/-- Every input keeps clients and groups in step with the handles. -/
theorem step_keepsLive (alt : String → String) (fuel : Nat) (av : Avahi) (i : Input)
    (s s' : ZeroconfRegisterAvahi) (h : step alt fuel av i s = some s') : KeepsLive s s' := by
  cases i with
  | registerService r p =>
    injection h with h; subst h
    exact registerService_keepsLive av r p s
  | client_callback state => exact client_callback_keepsLive alt av fuel state s s' h
  | entry_group_callback state => exact entry_group_callback_keepsLive alt av fuel state s s' h
  | timeout =>
    injection h with h; subst h
    exact timeout_keepsLive av s

/-- Every sequence of inputs preserves `HandlesLive`. -/
theorem run_handlesLive (alt : String → String) (fuel : Nat) :
    ∀ (inputs : List (Avahi × Input)) (s s' : ZeroconfRegisterAvahi),
      HandlesLive s → run alt fuel inputs s = some s' → HandlesLive s' := by
  intro inputs
  induction inputs with
  | nil =>
    intro s s' hs h
    injection h with h; subst h
    exact hs
  | cons x rest ih =>
    intro s s' hs h
    obtain ⟨av, i⟩ := x
    rw [run] at h
    cases hst : step alt fuel av i s with
    | none => simp [hst] at h
    | some s1 =>
      simp only [hst] at h
      exact ih s1 s' (handlesLive_of_keepsLive s s1 hs (step_keepsLive alt fuel av i s s1 hst)) h

/-- C15: in every state reached from a new registrar by calls of
`registerService`, client callbacks, group callbacks and expiries of the timer,
the history of operations never has two clients or two groups live at a time: a
client (group) is created only while none is live, only the live one is freed,
and the one live at the end is exactly the client (group) the registrar holds, so
that a null handle means that nothing is live. -/
theorem at_most_one_live_client_and_group (alt : String → String) (fuel : Nat)
    (inputs : List (Avahi × Input)) (s : ZeroconfRegisterAvahi)
    (h : run alt fuel inputs new = some s) :
    followClients none s.calls = some s.client_ ∧
    followGroups none s.calls = some s.group_ :=
  run_handlesLive alt fuel inputs new s ⟨rfl, rfl⟩ h

/-- C15 on a registration, a disconnect and a reconnect: the client 4 and the
group 5 of the restarted daemon are held and are the live ones at the end. -/
theorem at_most_one_live_after_reconnect :
    ∃ s, run id 1 Sample.reconnectSession new = some s ∧
      (followClients none s.calls = some s.client_ ∧
        followGroups none s.calls = some s.group_) ∧
      s.client_ = some 4 ∧ s.group_ = some 5 :=
  ⟨_, rfl, at_most_one_live_client_and_group id 1 Sample.reconnectSession _ rfl, by decide⟩

/-! ### Live threaded polls -/

/-- C16, evaluated where the code departs from it: a registration creates the
poll 1; after a disconnect the reconnect gets no client, emits the error and
leaves the client handle null and the poll 1 held and running; the registration
the caller then makes passes the guard on the client handle and stores a new
poll 6 over the poll 1, which is never stopped or freed: two polls are live. -/
theorem second_registration_leaks_poll :
    (run id 1 Sample.retrySession new).map
        (fun s => (s.calls, s.signals, s.threaded_poll_, followPolls none s.calls))
      = some ([.threaded_poll_new (some 1), .client_new (some 1) (some 2),
          .threaded_poll_start 1 0, .client_free 2, .client_new (some 1) none,
          .threaded_poll_new (some 6), .client_new (some 6) (some 4),
          .threaded_poll_start 6 0],
        [.error AVAHI_ERR_NO_MEMORY], some 6, none) := by
  decide

/-! ### Local collisions that converge -/

/-- Collisions change the pending name, by one application of the generator each,
and the operations called; every other member stays. -/
theorem afterCollisions_frame (alt : String → String) (av : Avahi) (g : Handle) :
    ∀ (k n : Nat) (s : ZeroconfRegisterAvahi),
      (afterCollisions alt av g k n s).group_ = s.group_ ∧
      (afterCollisions alt av g k n s).client_ = s.client_ ∧
      (afterCollisions alt av g k n s).threaded_poll_ = s.threaded_poll_ ∧
      (afterCollisions alt av g k n s).signals = s.signals ∧
      (afterCollisions alt av g k n s).servicePort_ = s.servicePort_ ∧
      (afterCollisions alt av g k n s).finalRecord = s.finalRecord ∧
      (afterCollisions alt av g k n s).pendingRecord.registeredType =
        s.pendingRecord.registeredType ∧
      (afterCollisions alt av g k n s).pendingRecord.replyDomain = s.pendingRecord.replyDomain ∧
      (afterCollisions alt av g k n s).pendingRecord.serviceName =
        alt^[k] s.pendingRecord.serviceName := by
  intro k
  induction k with
  | zero => intro n s; exact ⟨rfl, rfl, rfl, rfl, rfl, rfl, rfl, rfl, rfl⟩
  | succ k ih =>
    intro n s
    rw [afterCollisions]
    exact ih (n + 1) _

/-- Each collision calls one add and one reset, and no commit. -/
theorem afterCollisions_calls (alt : String → String) (av : Avahi) (g : Handle) :
    ∀ (k n : Nat) (s : ZeroconfRegisterAvahi),
      ∃ added, (afterCollisions alt av g k n s).calls = s.calls ++ added ∧
        added.countP AvahiCall.isReset = k ∧ added.countP AvahiCall.isCommit = 0 ∧
        added.countP AvahiCall.isAdd = k := by
  intro k
  induction k with
  | zero => intro n s; exact ⟨[], by simp [afterCollisions], rfl, rfl, rfl⟩
  | succ k ih =>
    intro n s
    rw [afterCollisions]
    obtain ⟨added, h1, h2, h3, h4⟩ := ih (n + 1)
      (call (.entry_group_reset g)
        { call (addCall av n g s) s with pendingRecord :=
          { s.pendingRecord with serviceName := alt s.pendingRecord.serviceName } })
    refine ⟨[addCall av n g s, .entry_group_reset g] ++ added, ?_, ?_, ?_, ?_⟩
    · rw [h1]; simp [call]
    · rw [List.countP_append, h2]; simp [addCall, AvahiCall.isReset]; omega
    · rw [List.countP_append, h3]; simp [addCall, AvahiCall.isCommit]
    · rw [List.countP_append, h4]; simp [addCall, AvahiCall.isAdd]; omega

/-- With a group held, `k` attempts in a row that find the group empty and
collide take `create_services` to the attempt after them. -/
theorem create_services_after_collisions (alt : String → String) (av : Avahi) (g : Handle) :
    ∀ (k fuel n : Nat) (s : ZeroconfRegisterAvahi), s.group_ = some g →
      (∀ j, j < k → av.entry_group_is_empty (n + j) = true ∧
        av.entry_group_add_service (n + j) = AVAHI_ERR_COLLISION) →
      create_services alt av (k + fuel) n s =
        create_services alt av fuel (n + k) (afterCollisions alt av g k n s) := by
  intro k
  induction k with
  | zero => intro fuel n s _ _; simp [afterCollisions]
  | succ k ih =>
    intro fuel n s hg h
    have h0 := h 0 (Nat.succ_pos k)
    rw [show k + 1 + fuel = (k + fuel) + 1 by omega,
      create_services_collision alt av (k + fuel) n s g hg h0.1 h0.2, afterCollisions,
      ih fuel (n + 1) _ (by exact hg)
        (fun j hj => by
          have := h (j + 1) (Nat.succ_lt_succ hj)
          rwa [show n + (j + 1) = n + 1 + j by omega] at this)]
    rw [show n + 1 + k = n + (k + 1) by omega]

/-- C18: with a group held, when the adds of the attempts `0 .. k - 1` collide and
the add of attempt `k` succeeds, the group is reported empty in each of these
attempts (before the first add and after each reset) and the commit succeeds, then
`create_services` returns for every bound above `k`: it emits nothing, resets the
group `k` times, commits once, and ends with the pending name `alt^[k]` of the
name it started with; type, domain, port and the group handle are unchanged. -/
theorem local_collisions_converge (alt : String → String) (av : Avahi) (k extra : Nat)
    (s : ZeroconfRegisterAvahi) (g : Handle) (hg : s.group_ = some g)
    (hcoll : ∀ j, j < k → av.entry_group_add_service j = AVAHI_ERR_COLLISION)
    (hadd : 0 ≤ av.entry_group_add_service k)
    (hempty : ∀ j, j ≤ k → av.entry_group_is_empty j = true)
    (hcommit : 0 ≤ av.entry_group_commit) :
    ∃ s', create_services alt av (k + 1 + extra) 0 s = some s' ∧
      s'.signals = s.signals ∧
      (s'.calls.drop s.calls.length).countP AvahiCall.isReset = k ∧
      (s'.calls.drop s.calls.length).countP AvahiCall.isCommit = 1 ∧
      (s'.calls.drop s.calls.length).countP AvahiCall.isAdd = k + 1 ∧
      s'.pendingRecord.serviceName = alt^[k] s.pendingRecord.serviceName ∧
      s'.pendingRecord.registeredType = s.pendingRecord.registeredType ∧
      s'.pendingRecord.replyDomain = s.pendingRecord.replyDomain ∧
      s'.servicePort_ = s.servicePort_ ∧ s'.group_ = s.group_ := by
  obtain ⟨f1, _, _, f4, f5, _, f7, f8, f9⟩ := afterCollisions_frame alt av g k 0 s
  obtain ⟨added, c1, c2, c3, c4⟩ := afterCollisions_calls alt av g k 0 s
  have hrun := create_services_after_collisions alt av g k (extra + 1) 0 s hg
    (fun j hj => by
      rw [Nat.zero_add]
      exact ⟨hempty j (Nat.le_of_lt hj), hcoll j hj⟩)
  rw [Nat.zero_add] at hrun
  rw [show k + 1 + extra = k + (extra + 1) by omega, hrun,
    create_services_committed alt av extra k _ g (f1.trans hg) (hempty k (Nat.le_refl k)) hadd,
    if_neg (not_lt.mpr hcommit)]
  refine ⟨_, rfl, f4, ?_, ?_, ?_, f9, f7, f8, f5, f1⟩
  all_goals
    simp only [call, c1, List.append_assoc, List.drop_left, List.countP_append, c2, c3, c4]
    simp [addCall, AvahiCall.isReset, AvahiCall.isCommit, AvahiCall.isAdd]

/-- C18 on the registrar `active` with two collisions: two resets, one commit,
two marks on the name. -/
theorem local_collisions_converge_twice :
    ∃ s', create_services Sample.appendMark Sample.collidingTwice (2 + 1 + 0) 0 Sample.active
        = some s' ∧
      s'.signals = Sample.active.signals ∧
      (s'.calls.drop Sample.active.calls.length).countP AvahiCall.isReset = 2 ∧
      (s'.calls.drop Sample.active.calls.length).countP AvahiCall.isCommit = 1 ∧
      (s'.calls.drop Sample.active.calls.length).countP AvahiCall.isAdd = 2 + 1 ∧
      s'.pendingRecord.serviceName =
        Sample.appendMark^[2] Sample.active.pendingRecord.serviceName ∧
      s'.pendingRecord.registeredType = Sample.active.pendingRecord.registeredType ∧
      s'.pendingRecord.replyDomain = Sample.active.pendingRecord.replyDomain ∧
      s'.servicePort_ = Sample.active.servicePort_ ∧ s'.group_ = Sample.active.group_ :=
  local_collisions_converge Sample.appendMark Sample.collidingTwice 2 0 Sample.active 3 rfl
    (by decide) (by decide) (by intro j _; rfl) (by decide)

/-! ### Consistency of the handles -/

/-- Adds, resets and commits work on a held group. -/
theorem addressed_of_usesGroup (c : AvahiCall) (h : c.usesGroup = true) :
    c.addressed = true := by
  cases c <;>
    first
      | rfl
      | simp [AvahiCall.usesGroup, AvahiCall.isAdd, AvahiCall.isReset, AvahiCall.isCommit] at h

/-- A registrar that stays as it is has called nothing. -/
theorem addsAddressed_same (s : ZeroconfRegisterAvahi) : AddsAddressed s s :=
  ⟨[], (List.append_nil _).symm, by simp⟩

/-- `registerService` keeps the handles consistent and requests its client on the
poll it has just created. -/
theorem registerService_consistent (av : Avahi) (r : ZeroconfRecord) (port : Nat)
    (s : ZeroconfRegisterAvahi) (h : Consistent s) :
    Consistent (registerService av r port s) ∧ AddsAddressed s (registerService av r port s) := by
  obtain ⟨c, g, p, _, _, _, _, flag, _, cs⟩ := s
  obtain ⟨h1, h2, h3⟩ := h
  simp only at h1 h2 h3
  cases c with
  | some c => exact ⟨⟨h1, h2, h3⟩, ⟨[], (List.append_nil _).symm, by simp⟩⟩
  | none =>
    have hg : g = none := by
      cases g with
      | none => rfl
      | some g => simp at h1
    have hf : flag = false := by
      cases flag with
      | false => rfl
      | true => simp at h3
    subst hg hf
    cases hp : av.threaded_poll_new with
    | none =>
      simp only [Consistent, AddsAddressed, registerService, call, emit, hp, List.append_assoc]
      exact ⟨by simp, _, rfl, by simp [AvahiCall.addressed]⟩
    | some poll =>
      cases hc : av.client_new with
      | error e =>
        simp only [Consistent, AddsAddressed, registerService, reset, call, emit, hp, hc,
          List.append_assoc]
        exact ⟨by simp, _, rfl, by simp [AvahiCall.addressed]⟩
      | ok c =>
        by_cases hs : av.threaded_poll_start < 0
        · simp only [Consistent, AddsAddressed, registerService, reset, call, emit, hp, hc, hs,
            List.append_assoc]
          exact ⟨by simp, _, rfl, by simp [AvahiCall.addressed]⟩
        · simp only [Consistent, AddsAddressed, registerService, call, emit, hp, hc, hs,
            List.append_assoc]
          exact ⟨by simp, _, rfl, by simp [AvahiCall.addressed]⟩

/-- The slot `reconnectToAvahi` keeps the handles consistent and requests its
client on a held poll. -/
theorem reconnectToAvahi_consistent (av : Avahi) (s : ZeroconfRegisterAvahi)
    (h : Consistent s) :
    Consistent (reconnectToAvahi av s) ∧ AddsAddressed s (reconnectToAvahi av s) := by
  obtain ⟨c, g, p, _, _, _, _, flag, _, cs⟩ := s
  obtain ⟨h1, h2, h3⟩ := h
  simp only at h1 h2 h3
  cases flag with
  | false => exact ⟨⟨h1, h2, h3⟩, ⟨[], (List.append_nil _).symm, by simp⟩⟩
  | true =>
    cases c with
    | none => simp at h3
    | some c =>
      cases p with
      | none => simp at h2
      | some p =>
        cases g <;> cases hav : av.client_new <;>
          (simp only [Consistent, AddsAddressed, reconnectToAvahi, call, emit, hav,
             List.append_assoc, if_true]
           exact ⟨by simp, _, rfl, by simp [AvahiCall.addressed]⟩)

/-- With a client held, `create_services` requests a group only on that client. -/
theorem create_services_addressed (alt : String → String) (av : Avahi) (fuel n : Nat)
    (s s' : ZeroconfRegisterAvahi) (hc : s.client_.isSome = true)
    (h : create_services alt av fuel n s = some s') : AddsAddressed s s' := by
  cases fuel with
  | zero => simp [create_services] at h
  | succ fuel =>
    cases hg : s.group_ with
    | some g =>
      obtain ⟨added, h1, h2⟩ := create_services_loop_uses_group alt av g _ _ _ _ hg h
      exact ⟨added, h1, fun c hc' => addressed_of_usesGroup c (h2 c hc')⟩
    | none =>
      obtain ⟨cl, hcl⟩ := Option.isSome_iff_exists.mp hc
      cases hn : av.entry_group_new with
      | none =>
        rw [create_services_group_failed alt av fuel n s hg hn] at h
        injection h with h; subst h
        refine ⟨[.entry_group_new s.client_ none], rfl, ?_⟩
        intro c hc'
        simp only [List.mem_singleton] at hc'
        rw [hc', hcl]; rfl
      | some g =>
        rw [create_services_group_created alt av fuel n s g hg hn] at h
        obtain ⟨added, h1, h2⟩ := create_services_loop_uses_group alt av g _ _ _ _ rfl h
        refine ⟨.entry_group_new s.client_ (some g) :: added, ?_, ?_⟩
        · rw [h1]; simp [call]
        · intro c hc'
          simp only [List.mem_cons] at hc'
          rcases hc' with hc' | hc'
          · rw [hc', hcl]; rfl
          · exact addressed_of_usesGroup c (h2 c hc')

/-- With a client held, `create_services` keeps the handles consistent. -/
theorem create_services_consistent (alt : String → String) (av : Avahi) (fuel n : Nat)
    (s s' : ZeroconfRegisterAvahi) (hs : Consistent s) (hc : s.client_.isSome = true)
    (h : create_services alt av fuel n s = some s') : Consistent s' := by
  obtain ⟨f1, f2, _, _, _, _, _⟩ := create_services_frame alt av fuel n s s' h
  refine ⟨fun _ => ?_, fun _ => ?_, fun _ => ?_⟩
  · rw [f1]; exact hc
  · rw [f2]; exact hs.2.1 hc
  · rw [f1]; exact hc

/-- A client callback for a held client keeps the handles consistent. -/
theorem client_callback_consistent (alt : String → String) (av : Avahi) (fuel : Nat)
    (state : AvahiClientState) (s s' : ZeroconfRegisterAvahi) (hs : Consistent s)
    (hc : s.client_.isSome = true) (h : client_callback alt av fuel state s = some s') :
    Consistent s' ∧ AddsAddressed s s' := by
  cases state with
  | S_RUNNING =>
    exact ⟨create_services_consistent alt av fuel 0 s s' hs hc h,
      create_services_addressed alt av fuel 0 s s' hc h⟩
  | FAILURE =>
    unfold client_callback at h
    by_cases he : av.client_errno = AVAHI_ERR_DISCONNECTED
    · simp only [he, if_true] at h
      injection h with h; subst h
      exact ⟨⟨hs.1, hs.2.1, fun _ => hc⟩, ⟨[], (List.append_nil _).symm, by simp⟩⟩
    · simp only [he, if_false] at h
      injection h with h; subst h
      exact ⟨hs, ⟨[], (List.append_nil _).symm, by simp⟩⟩
  | S_COLLISION =>
    unfold client_callback at h
    cases hg : s.group_ <;> simp only [hg] at h <;> injection h with h <;> subst h
    · exact ⟨hs, addsAddressed_same _⟩
    · exact ⟨hs, ⟨[.entry_group_reset _], rfl, by simp [AvahiCall.addressed]⟩⟩
  | S_REGISTERING =>
    unfold client_callback at h
    cases hg : s.group_ <;> simp only [hg] at h <;> injection h with h <;> subst h
    · exact ⟨hs, addsAddressed_same _⟩
    · exact ⟨hs, ⟨[.entry_group_reset _], rfl, by simp [AvahiCall.addressed]⟩⟩
  | CONNECTING =>
    injection h with h; subst h
    exact ⟨hs, addsAddressed_same _⟩

/-- A group callback for a held group keeps the handles consistent. -/
theorem entry_group_callback_consistent (alt : String → String) (av : Avahi) (fuel : Nat)
    (state : AvahiEntryGroupState) (s s' : ZeroconfRegisterAvahi) (hs : Consistent s)
    (hg : s.group_.isSome = true) (h : entry_group_callback alt av fuel state s = some s') :
    Consistent s' ∧ AddsAddressed s s' := by
  have hc : s.client_.isSome = true := hs.1 hg
  cases state with
  | ESTABLISHED =>
    injection h with h; subst h
    exact ⟨hs, ⟨[], (List.append_nil _).symm, by simp⟩⟩
  | COLLISION =>
    have h1 := create_services_consistent alt av fuel 0 _ s' (by exact hs) (by exact hc) h
    have h2 := create_services_addressed alt av fuel 0 _ s' (by exact hc) h
    exact ⟨h1, h2⟩
  | FAILURE =>
    injection h with h; subst h
    exact ⟨hs, ⟨[], (List.append_nil _).symm, by simp⟩⟩
  | UNCOMMITED =>
    injection h with h; subst h
    exact ⟨hs, addsAddressed_same _⟩
  | REGISTERING =>
    injection h with h; subst h
    exact ⟨hs, addsAddressed_same _⟩

/-- An expiry of the timer keeps the handles consistent. -/
theorem timeout_consistent (av : Avahi) (s : ZeroconfRegisterAvahi) (hs : Consistent s) :
    Consistent (timeout av s) ∧ AddsAddressed s (timeout av s) := by
  unfold timeout
  cases s.reconnectTimer_ with
  | none => exact ⟨hs, addsAddressed_same _⟩
  | some ms => exact reconnectToAvahi_consistent av { s with reconnectTimer_ := none } hs

/-- Every input that can be delivered keeps the handles consistent. -/
theorem step_consistent (alt : String → String) (fuel : Nat) (av : Avahi) (i : Input)
    (s s' : ZeroconfRegisterAvahi) (hs : Consistent s) (hd : i.deliverable s = true)
    (h : step alt fuel av i s = some s') : Consistent s' ∧ AddsAddressed s s' := by
  cases i with
  | registerService r p =>
    injection h with h; subst h
    exact registerService_consistent av r p s hs
  | client_callback state => exact client_callback_consistent alt av fuel state s s' hs hd h
  | entry_group_callback state =>
    exact entry_group_callback_consistent alt av fuel state s s' hs hd h
  | timeout =>
    injection h with h; subst h
    exact timeout_consistent av s hs

/-- Along inputs that are delivered while their object is held, the handles stay
consistent and every operation is handed its object. -/
theorem run_consistent (alt : String → String) (fuel : Nat) :
    ∀ (inputs : List (Avahi × Input)) (s s' : ZeroconfRegisterAvahi),
      Consistent s → (∀ c ∈ s.calls, c.addressed = true) →
      allDelivered alt fuel inputs s = true → run alt fuel inputs s = some s' →
      Consistent s' ∧ ∀ c ∈ s'.calls, c.addressed = true := by
  intro inputs
  induction inputs with
  | nil =>
    intro s s' hs hc _ h
    injection h with h; subst h
    exact ⟨hs, hc⟩
  | cons x rest ih =>
    intro s s' hs hc hd h
    obtain ⟨av, i⟩ := x
    rw [run] at h
    rw [allDelivered] at hd
    cases hst : step alt fuel av i s with
    | none => simp [hst] at h
    | some s1 =>
      simp only [hst] at h
      simp only [hst, Bool.and_eq_true] at hd
      obtain ⟨k1, added, k2, k3⟩ := step_consistent alt fuel av i s s1 hs hd.1 hst
      refine ih s1 s' k1 ?_ hd.2 h
      intro c hc'
      rw [k2] at hc'
      rcases List.mem_append.mp hc' with hc' | hc'
      · exact hc c hc'
      · exact k3 c hc'

/-- C21: in every state reached from a new registrar by calls of
`registerService`, expiries of the timer, client callbacks delivered while a client
is held and group callbacks delivered while a group is held, a held group comes
with a held client, a held client with a held poll, and a set `needsReconnect_`
with a held client; and in the history of operations no group was requested on a
null client and no client on a null poll. -/
theorem handles_stay_consistent (alt : String → String) (fuel : Nat)
    (inputs : List (Avahi × Input)) (s : ZeroconfRegisterAvahi)
    (hd : allDelivered alt fuel inputs new = true)
    (h : run alt fuel inputs new = some s) :
    (s.group_.isSome = true → s.client_.isSome = true) ∧
    (s.client_.isSome = true → s.threaded_poll_.isSome = true) ∧
    (s.needsReconnect_ = true → s.client_.isSome = true) ∧
    (∀ client ret, AvahiCall.entry_group_new client ret ∈ s.calls → client.isSome = true) ∧
    (∀ poll ret, AvahiCall.client_new poll ret ∈ s.calls → poll.isSome = true) := by
  have hnew : Consistent new := by simp [Consistent, new]
  obtain ⟨⟨h1, h2, h3⟩, h4⟩ := run_consistent alt fuel inputs new s hnew
    (fun c hc => by cases hc) hd h
  refine ⟨h1, h2, h3, ?_, ?_⟩
  · intro client ret hc
    have := h4 _ hc
    cases client with
    | none => cases this
    | some c => rfl
  · intro poll ret hc
    have := h4 _ hc
    cases poll with
    | none => cases this
    | some p => rfl

/-- C21 on a registration, a disconnect and a reconnect, all callbacks delivered
while their object is held: the three handles are held at the end and the flag is
clear. -/
theorem handles_consistent_after_reconnect :
    ∃ s, run id 1 Sample.reconnectSession new = some s ∧
      ((s.group_.isSome = true → s.client_.isSome = true) ∧
        (s.client_.isSome = true → s.threaded_poll_.isSome = true) ∧
        (s.needsReconnect_ = true → s.client_.isSome = true) ∧
        (∀ client ret, AvahiCall.entry_group_new client ret ∈ s.calls →
          client.isSome = true) ∧
        (∀ poll ret, AvahiCall.client_new poll ret ∈ s.calls → poll.isSome = true)) ∧
      s.group_ = some 5 ∧ s.client_ = some 4 ∧ s.threaded_poll_ = some 1 :=
  ⟨_, rfl, handles_stay_consistent id 1 Sample.reconnectSession _ rfl rfl, by decide⟩

/-! ### The order of the releases -/

/-- C22, evaluated where the code departs from it: with a client `c` and a group
`g` held and a reconnect wanted, `reset()` releases the group first and the client
second, the order the claim states; the slot `reconnectToAvahi` releases the
client first and the group second, which is not that order. -/
theorem reconnect_frees_client_before_group (av : Avahi) (s : ZeroconfRegisterAvahi)
    (c g : Handle) (hc : s.client_ = some c) (hg : s.group_ = some g)
    (hf : s.needsReconnect_ = true) :
    releases ((reset s).calls.drop s.calls.length) = groupThenClient g c ∧
    releases ((reconnectToAvahi av s).calls.drop s.calls.length) =
      [.client_free c, .entry_group_free g] ∧
    releases ((reconnectToAvahi av s).calls.drop s.calls.length) ≠ groupThenClient g c := by
  obtain ⟨c0, g0, p, _, _, _, _, flag, _, cs⟩ := s
  simp only at hc hg hf
  subst hc hg hf
  cases p <;> cases hav : av.client_new <;>
    simp [reset, reconnectToAvahi, call, emit, hav, releases, AvahiCall.isRelease,
      groupThenClient]

/-- C22 at the state a registration, the report Running and a disconnect lead to:
the expiry of the timer frees the client 2 before the group 3. -/
theorem reconnect_frees_client_before_group_session :
    ∃ s, run id 1 Sample.disconnectedSession new = some s ∧
      releases ((reset s).calls.drop s.calls.length) = groupThenClient 3 2 ∧
      releases ((reconnectToAvahi Sample.restarted s).calls.drop s.calls.length) =
        [.client_free 2, .entry_group_free 3] ∧
      releases ((reconnectToAvahi Sample.restarted s).calls.drop s.calls.length) ≠
        groupThenClient 3 2 :=
  ⟨_, rfl, reconnect_frees_client_before_group Sample.restarted _ 2 3 rfl rfl rfl⟩

/-! ### reset and a pending reconnect -/

end ZeroconfRegisterAvahi
